import Mathlib

/-!
Verification of the AI-Resume-optimizer pipeline (pdf_parser.py, utils.py,
resume_generator.py, resume_optimizer.py) against its specification.

The Python code is shallowly embedded: JSON values become the inductive `Json`,
Python dicts become association lists with Python's duplicate-key (last wins,
first position kept) semantics, exceptions become `Option`/`Except` failures,
and the external generative service (Gemini) becomes an oracle parameter that
either returns a text or raises.  `json.loads` is modelled by a fuel-based
recursive-descent parser of the full RFC 8259 grammar — including float
numbers with fraction and exponent parts — plus Python's default extensions
`NaN`, `Infinity` and `-Infinity`; crucially it rejects single-quoted
strings, as Python does.  `\uXXXX` escapes are mapped code-point-wise without
surrogate-pair combination: this can only change the characters inside a
decoded string, never whether a decode succeeds, and no property proved here
inspects such characters.
-/

/-- A Python float as produced by `json.loads`: a finite value kept as its
exact decimal reading `m × 10^e` (before IEEE-754 rounding — no code path
modelled here compares or computes with finite float values), or one of the
non-finite constants `NaN` / `Infinity` / `-Infinity`, which Python json
accepts by default. -/
inductive JFloat where
  | finite (m : Int) (e : Int)
  | nan
  | inf
  | negInf
deriving DecidableEq

/-- A JSON value, the structured-record currency of the pipeline.  `num` is a
Python `int` (a number literal without fraction or exponent), `fnum` a Python
`float`. -/
inductive Json where
  | null
  | bool (b : Bool)
  | num (n : Int)
  | fnum (v : JFloat)
  | str (s : String)
  | arr (elems : List Json)
  | obj (members : List (String × Json))

mutual
/-- Structural boolean equality on `Json` (deriving `DecidableEq` is not
available for this nested inductive on this toolchain). -/
def jsonBeq : Json → Json → Bool
  | Json.null, Json.null => true
  | Json.bool a, Json.bool b => a == b
  | Json.num a, Json.num b => a == b
  | Json.fnum a, Json.fnum b => a == b
  | Json.str a, Json.str b => a == b
  | Json.arr a, Json.arr b => jsonListBeq a b
  | Json.obj a, Json.obj b => jsonObjBeq a b
  | _, _ => false
/-- Elementwise `jsonBeq` on lists. -/
def jsonListBeq : List Json → List Json → Bool
  | [], [] => true
  | x :: xs, y :: ys => jsonBeq x y && jsonListBeq xs ys
  | _, _ => false
/-- Memberwise `jsonBeq` on object member lists. -/
def jsonObjBeq : List (String × Json) → List (String × Json) → Bool
  | [], [] => true
  | (k, v) :: xs, (k2, v2) :: ys => k == k2 && jsonBeq v v2 && jsonObjBeq xs ys
  | _, _ => false
end

/-- First binding of a key in an association list (Python dict lookup: keys are
unique by construction, see `objInsert`). -/
def pyLookup (kvs : List (String × Json)) (k : String) : Option Json :=
  match kvs with
  | [] => none
  | (k2, v) :: rest => if k2 == k then some v else pyLookup rest k

/-- Python `d[k] = v`: replace the value at an existing key in place (keeping
its position), else append the new binding. -/
def objInsert (kvs : List (String × Json)) (k : String) (v : Json) :
    List (String × Json) :=
  match kvs with
  | [] => [(k, v)]
  | (k2, v2) :: rest =>
      if k2 == k then (k2, v) :: rest else (k2, v2) :: objInsert rest k v

/-- Python truthiness of a JSON value (`bool(x)`). -/
def pyTruthy : Json → Bool
  | Json.null => false
  | Json.bool b => b
  | Json.num n => n != 0
  | Json.fnum (JFloat.finite m _) => m != 0
  | Json.fnum _ => true
  | Json.str s => !s.isEmpty
  | Json.arr xs => !xs.isEmpty
  | Json.obj kvs => !kvs.isEmpty

/-- Python `d.get(k, default)`: succeeds only on a dict (`AttributeError`
otherwise, modelled as `none`). -/
def pyGet (j : Json) (k : String) (d : Json) : Option Json :=
  match j with
  | Json.obj kvs => some ((pyLookup kvs k).getD d)
  | _ => none

/-- Python `d[k]`: `KeyError` when the key is absent, `TypeError` when the
value is not a dict; both are exceptions, modelled as `none`. -/
def pyIndex (j : Json) (k : String) : Option Json :=
  match j with
  | Json.obj kvs => pyLookup kvs k
  | _ => none

/-- Python `k in x` for a string `k`: key test on dicts, membership on lists,
substring test on strings, `TypeError` (= `none`) otherwise. -/
def strHasSub (pat : List Char) : List Char → Bool
  | [] => pat.isEmpty
  | c :: rest => List.isPrefixOf pat (c :: rest) || strHasSub pat rest

/-- String-level wrapper of `strHasSub` (Python `pat in s`). -/
def pyInStr (pat s : String) : Bool := strHasSub pat.data s.data

/-- Python membership `k in j` (see `strHasSub` for the string case). -/
def pyContains (j : Json) (k : String) : Option Bool :=
  match j with
  | Json.obj kvs => some (kvs.any (fun kv => kv.1 == k))
  | Json.arr xs => some (xs.any (fun x => jsonBeq x (Json.str k)))
  | Json.str s => some (pyInStr k s)
  | _ => none

/-- Python iteration `for x in j`: list elements, characters of a string (as
one-character strings), the keys of a dict; `TypeError` otherwise. -/
def pyIter : Json → Option (List Json)
  | Json.arr xs => some xs
  | Json.str s => some (s.data.map (fun c => Json.str (String.singleton c)))
  | Json.obj kvs => some (kvs.map (fun kv => Json.str kv.1))
  | _ => none

/-- Single-quote character, kept out of string literals. -/
def sQuoteChar : Char := Char.ofNat 39

/-- Single-quote as a one-character string. -/
def sQuote : String := String.singleton sQuoteChar

/-- Rendering of a Python float for `str()`/`repr()`; finite values are shown
in mantissa-times-ten-to-exponent form (CPython prints the shortest
round-trip decimal of the rounded IEEE value, which no modelled code path
observes). -/
def jfloatStr : JFloat → String
  | JFloat.finite m e => toString m ++ "e" ++ toString e
  | JFloat.nan => "nan"
  | JFloat.inf => "inf"
  | JFloat.negInf => "-inf"

mutual
/-- Python `repr` of a JSON value (only used by f-string conversion of
containers; scalar cases are the ones exercised here). -/
def pyRepr : Json → String
  | Json.null => "None"
  | Json.bool b => if b then "True" else "False"
  | Json.num n => toString n
  | Json.fnum v => jfloatStr v
  | Json.str s => sQuote ++ s ++ sQuote
  | Json.arr xs => "[" ++ pyReprList xs ++ "]"
  | Json.obj kvs => "\x7b" ++ pyReprObj kvs ++ "\x7d"
/-- Comma-joined `pyRepr` of list elements. -/
def pyReprList : List Json → String
  | [] => ""
  | [x] => pyRepr x
  | x :: xs => pyRepr x ++ ", " ++ pyReprList xs
/-- Comma-joined `key: value` renderings of object members. -/
def pyReprObj : List (String × Json) → String
  | [] => ""
  | [(k, v)] => sQuote ++ k ++ sQuote ++ ": " ++ pyRepr v
  | (k, v) :: kvs => sQuote ++ k ++ sQuote ++ ": " ++ pyRepr v ++ ", " ++ pyReprObj kvs
end

/-- Python `str(x)` / f-string conversion of a JSON value. -/
def pyStr : Json → String
  | Json.null => "None"
  | Json.bool b => if b then "True" else "False"
  | Json.num n => toString n
  | Json.fnum v => jfloatStr v
  | Json.str s => s
  | Json.arr xs => "[" ++ pyReprList xs ++ "]"
  | Json.obj kvs => "\x7b" ++ pyReprObj kvs ++ "\x7d"

/-- Strict string extraction: Python APIs such as `docx.add_run` accept only
`str` arguments and raise `TypeError` on anything else. -/
def pyStrStrict : Json → Option String
  | Json.str s => some s
  | _ => none

/-! ### A model of Python `json.loads` (RFC 8259 plus Python's default
extensions: the number grammar covers integers, fraction and exponent parts,
and the non-standard constants `NaN`, `Infinity` and `-Infinity` that
`json.loads` accepts unless `parse_constant` intervenes) -/

/-- JSON insignificant whitespace (`json.loads` skips space, tab, LF, CR). -/
def jsonWs (c : Char) : Bool := [' ', '\t', '\n', '\r'].contains c

/-- Drop leading JSON whitespace. -/
def skipWs : List Char → List Char
  | [] => []
  | c :: cs => if jsonWs c then skipWs cs else c :: cs

/-- Decimal digit test. -/
def isDig (c : Char) : Bool := '0' ≤ c && c ≤ '9'

/-- Longest digit run at the head of the input. -/
def takeDigits : List Char → List Char × List Char
  | [] => ([], [])
  | c :: cs =>
      if isDig c then
        let (ds, r) := takeDigits cs
        (c :: ds, r)
      else ([], c :: cs)

/-- Numeric value of a digit run. -/
def digitsToNat (ds : List Char) : Nat :=
  ds.foldl (fun acc c => acc * 10 + (c.toNat - 48)) 0

/-- Optional exponent part of a JSON number: `[eE][+-]?digits`.  Returns the
signed exponent when one is present (the inner `none` marks its absence) and
fails when an `e` is not followed by at least one digit — inputs on which
Python's scanner leaves the `e` as trailing garbage, failing the decode in
every position a number may occupy. -/
def parseExpOpt (input : List Char) : Option (Option Int × List Char) :=
  match input with
  | c :: r =>
      if c == 'e' || c == 'E' then
        let (esign, r2) :=
          match r with
          | '+' :: r3 => ((1 : Int), r3)
          | '-' :: r3 => ((-1 : Int), r3)
          | _ => ((1 : Int), r)
        match takeDigits r2 with
        | ([], _) => none
        | (es, r3) => some (some (esign * (digitsToNat es : Int)), r3)
      else some (none, input)
  | [] => some (none, [])

/-- Hexadecimal digit value. -/
def hexVal (c : Char) : Option Nat :=
  if '0' ≤ c && c ≤ '9' then some (c.toNat - 48)
  else if 'a' ≤ c && c ≤ 'f' then some (c.toNat - 97 + 10)
  else if 'A' ≤ c && c ≤ 'F' then some (c.toNat - 65 + 10)
  else none

/-- Single-character JSON string escapes. -/
def jsonUnescape (c : Char) : Option Char :=
  List.lookup c
    [('"', '"'), ('\\', '\\'), ('/', '/'), ('b', Char.ofNat 8),
     ('f', Char.ofNat 12), ('n', '\n'), ('r', '\r'), ('t', '\t')]

/-- Parse the body of a double-quoted JSON string (after the opening quote);
rejects control characters and bad escapes as Python does.  Surrogate pairs in
`\uXXXX` escapes are out of scope (never produced by the inputs modelled). -/
def parseJString (acc : List Char) : List Char → Option (String × List Char)
  | [] => none
  | c :: cs =>
      if c == '"' then some (String.mk acc.reverse, cs)
      else if c == '\\' then
        match cs with
        | [] => none
        | e :: cs2 =>
            if e == 'u' then
              match cs2 with
              | a :: b :: c3 :: d :: cs3 =>
                  match hexVal a, hexVal b, hexVal c3, hexVal d with
                  | some va, some vb, some vc, some vd =>
                      parseJString
                        (Char.ofNat (((va * 16 + vb) * 16 + vc) * 16 + vd) :: acc) cs3
                  | _, _, _, _ => none
              | _ => none
            else
              match jsonUnescape e with
              | some u => parseJString (u :: acc) cs2
              | none => none
      else if c.toNat < 32 then none
      else parseJString (c :: acc) cs

mutual
/-- Parse one JSON value (fuel-based so the recursion is structural); returns
the value and the remaining input. -/
def parseJValue : Nat → List Char → Option (Json × List Char)
  | 0, _ => none
  | _ + 1, [] => none
  | fuel + 1, input =>
      match skipWs input with
      | [] => none
      | c :: cs =>
          if c == 'n' then
            match cs with
            | 'u' :: 'l' :: 'l' :: r => some (Json.null, r)
            | _ => none
          else if c == 't' then
            match cs with
            | 'r' :: 'u' :: 'e' :: r => some (Json.bool true, r)
            | _ => none
          else if c == 'f' then
            match cs with
            | 'a' :: 'l' :: 's' :: 'e' :: r => some (Json.bool false, r)
            | _ => none
          else if c == '"' then
            match parseJString [] cs with
            | some (s, r) => some (Json.str s, r)
            | none => none
          else if c == '[' then
            match skipWs cs with
            | ']' :: r => some (Json.arr [], r)
            | cs2 => parseJArrayItems fuel cs2 []
          else if c == Char.ofNat 123 then
            match skipWs cs with
            | cs2 =>
                match cs2 with
                | c2 :: r2 =>
                    if c2 == Char.ofNat 125 then some (Json.obj [], r2)
                    else parseJObjectItems fuel (c2 :: r2) []
                | [] => none
          else if c == 'N' then
            match cs with
            | 'a' :: 'N' :: r => some (Json.fnum JFloat.nan, r)
            | _ => none
          else if c == 'I' then
            match cs with
            | 'n' :: 'f' :: 'i' :: 'n' :: 'i' :: 't' :: 'y' :: r =>
                some (Json.fnum JFloat.inf, r)
            | _ => none
          else if c == '-' && cs.headD ' ' == 'I' then
            match cs with
            | 'I' :: 'n' :: 'f' :: 'i' :: 'n' :: 'i' :: 't' :: 'y' :: r =>
                some (Json.fnum JFloat.negInf, r)
            | _ => none
          else if c == '-' || isDig c then
            let (sign, rest) := if c == '-' then ((-1 : Int), cs) else (1, c :: cs)
            match takeDigits rest with
            | ([], _) => none
            | (ds, r) =>
                -- Python rejects numbers with leading zeros such as 01.
                if ds.length > 1 && ds.headD '0' == '0' then none
                else
                  match r with
                  | '.' :: r2 =>
                      -- A fraction part needs at least one digit; with an
                      -- optional exponent the literal is a Python float.
                      match takeDigits r2 with
                      | ([], _) => none
                      | (fs, r3) =>
                          match parseExpOpt r3 with
                          | none => none
                          | some (oe, r4) =>
                              some (Json.fnum (JFloat.finite
                                (sign * (digitsToNat (ds ++ fs) : Int))
                                (oe.getD 0 - (fs.length : Int))), r4)
                  | _ =>
                      -- No fraction: the literal is an int unless an
                      -- exponent follows (then Python yields a float).
                      match parseExpOpt r with
                      | none => none
                      | some (none, r4) =>
                          some (Json.num (sign * (digitsToNat ds : Int)), r4)
                      | some (some e2, r4) =>
                          some (Json.fnum (JFloat.finite
                            (sign * (digitsToNat ds : Int)) e2), r4)
          else none

/-- Parse the comma-separated items of a JSON array, after the opening
bracket (first item pending). -/
def parseJArrayItems (fuel : Nat) (input : List Char) (acc : List Json) :
    Option (Json × List Char) :=
  match fuel with
  | 0 => none
  | f + 1 =>
      match parseJValue f input with
      | none => none
      | some (v, r) =>
          match skipWs r with
          | ',' :: r2 => parseJArrayItems f r2 (v :: acc)
          | ']' :: r2 => some (Json.arr (acc.reverse ++ [v]), r2)
          | _ => none

/-- Parse the comma-separated members of a JSON object, after the opening
brace (first member pending); duplicate keys follow Python (last wins). -/
def parseJObjectItems (fuel : Nat) (input : List Char) (acc : List (String × Json)) :
    Option (Json × List Char) :=
  match fuel with
  | 0 => none
  | f + 1 =>
      match skipWs input with
      | '"' :: cs =>
          match parseJString [] cs with
          | none => none
          | some (k, r) =>
              match skipWs r with
              | ':' :: r2 =>
                  match parseJValue f r2 with
                  | none => none
                  | some (v, r3) =>
                      let acc2 := objInsert acc k v
                      match skipWs r3 with
                      | ',' :: r4 => parseJObjectItems f r4 acc2
                      | c :: r4 =>
                          if c == Char.ofNat 125 then some (Json.obj acc2, r4)
                          else none
                      | [] => none
              | _ => none
      | _ => none
end

/-- Model of Python `json.loads`: parse one value, then require only
whitespace to follow; `none` models `json.JSONDecodeError`. -/
def pyJsonParse (s : String) : Option Json :=
  match parseJValue (s.length + 1) s.data with
  | none => none
  | some (v, r) =>
      match skipWs r with
      | [] => some v
      | _ => none

/-- Whether a value is a JSON object (Python `isinstance(x, dict)`). -/
def Json.isObj : Json → Bool
  | Json.obj _ => true
  | _ => false

/-! ### String helpers shared by the Python models -/

/-- Python regex `\s` character class. -/
def pyWsChar (c : Char) : Bool :=
  [' ', '\t', '\n', '\r', Char.ofNat 11, Char.ofNat 12].contains c

/-- Split a leading `\s*` run from the input. -/
def takePyWs : List Char → List Char × List Char
  | [] => ([], [])
  | c :: cs =>
      if pyWsChar c then
        let (w, r) := takePyWs cs
        (c :: w, r)
      else ([], c :: cs)

/-- Python `str.strip()` (default whitespace). -/
def pyStrip (s : String) : String :=
  String.mk (((s.data.dropWhile pyWsChar).reverse.dropWhile pyWsChar).reverse)

/-- Python `str.lower()` (ASCII case, which covers every input used here). -/
def pyLowerStr (s : String) : String := String.mk (s.data.map Char.toLower)

/-- Index of the first occurrence of a character (`str.find`). -/
def idxOfChar (c : Char) : List Char → Option Nat
  | [] => none
  | x :: r => if x == c then some 0 else (idxOfChar c r).map (fun i => i + 1)

/-- `str.find(c)` as an `Option` (Python returns -1 when absent). -/
def strFindIdx (c : Char) (s : String) : Option Nat := idxOfChar c s.data

/-- `str.rfind(c)` as an `Option`. -/
def strRFindIdx (c : Char) (s : String) : Option Nat :=
  (idxOfChar c s.data.reverse).map (fun i => s.data.length - 1 - i)

/-- The brace-extraction step shared by both repair paths:
`start_idx = text.find(chr(123)); end_idx = text.rfind(chr(125)) + 1;`
slice `text[start_idx:end_idx]` when `start_idx >= 0 and end_idx > start_idx`. -/
def braceSlice (s : String) : Option String :=
  match strFindIdx (Char.ofNat 123) s, strRFindIdx (Char.ofNat 125) s with
  | some st, some lastIdx =>
      if st < lastIdx + 1 then
        some (String.mk ((s.data.drop st).take (lastIdx + 1 - st)))
      else none
  | _, _ => none

/-- One pass of Python `str.replace`: replace every non-overlapping occurrence
of `pat`, scanning left to right; the replacement text is not rescanned. -/
def pyReplaceAux (pat rep : List Char) : Nat → List Char → List Char
  | 0, l => l
  | _, [] => []
  | fuel + 1, c :: rest =>
      if List.isPrefixOf pat (c :: rest) then
        rep ++ pyReplaceAux pat rep fuel (List.drop (pat.length - 1) rest)
      else c :: pyReplaceAux pat rep fuel rest

/-- Python `s.replace(pat, rep)` for a non-empty `pat` (every use here has a
non-empty pattern; the empty-pattern case is left as the identity). -/
def pyReplace (s pat rep : String) : String :=
  if pat.isEmpty then s
  else String.mk (pyReplaceAux pat.data rep.data (s.length + 1) s.data)

/-- Chars up to (not including) the first occurrence of `stopc`; fails when
`stopc` never occurs.  Also consumes the stop character. -/
def takeUntil (stopc : Char) : List Char → Option (List Char × List Char)
  | [] => none
  | c :: r =>
      if c == stopc then some ([], r)
      else
        match takeUntil stopc r with
        | some (xs, rest) => some (c :: xs, rest)
        | none => none

/-! ### Models of the `re.sub` cleaning passes

Each Python pattern below is compiled by hand into a left-to-right scanner:
at every position the scanner either recognises the pattern (then emits the
replacement and resumes after the match, exactly like `re.sub`) or copies one
character. -/

/-- Lookahead `(?=\s*:)`. -/
def aheadColon (l : List Char) : Bool :=
  match takePyWs l with
  | (_, ':' :: _) => true
  | _ => false

/-- Lookahead `(?=\s*[,}])`. -/
def aheadCommaOrBrace (l : List Char) : Bool :=
  match takePyWs l with
  | (_, c :: _) => c == ',' || c == Char.ofNat 125
  | _ => false

/-- Try to match `\s*'([^']+)'(?=\s*:)` at the start of `l` (the position just
after a `{` or `,` lookbehind); on success return the key and the input after
the closing quote. -/
def matchSqKey (l : List Char) : Option (List Char × List Char) :=
  let (_, r) := takePyWs l
  match r with
  | q :: r2 =>
      if q == sQuoteChar then
        match takeUntil sQuoteChar r2 with
        | some (key, r3) =>
            if !key.isEmpty && aheadColon r3 then some (key, r3) else none
        | none => none
      else none
  | [] => none

/-- `re.sub(r"(?<={|,)\s*'([^']+)'(?=\s*:)", r'"\1"', s)`: rewrite
single-quoted keys to double-quoted ones (shared by both repair paths; the
lazy `+?` variant in resume_generator kvMatches exactly the same spans). -/
def subSqKeysAux : Nat → List Char → List Char
  | 0, l => l
  | _, [] => []
  | fuel + 1, c :: rest =>
      if c == Char.ofNat 123 || c == ',' then
        match matchSqKey rest with
        | some (key, r2) => c :: '"' :: (key ++ '"' :: subSqKeysAux fuel r2)
        | none => c :: subSqKeysAux fuel rest
      else c :: subSqKeysAux fuel rest

/-- String-level wrapper of `subSqKeysAux`. -/
def subSqKeys (s : String) : String := String.mk (subSqKeysAux (s.length + 1) s.data)

/-- Try to match `\s*'([^']*)'(?=\s*[,}])` just after a `:`; pdf_parser's
value-quoting pattern. -/
def matchSqValPdf (l : List Char) : Option (List Char × List Char) :=
  let (_, r) := takePyWs l
  match r with
  | q :: r2 =>
      if q == sQuoteChar then
        match takeUntil sQuoteChar r2 with
        | some (val, r3) => if aheadCommaOrBrace r3 then some (val, r3) else none
        | none => none
      else none
  | [] => none

/-- `re.sub(r":\s*'([^']*)'(?=\s*[,}])", r':"\1"', s)` (pdf_parser.py line
116): rewrite single-quoted string values to double-quoted ones. -/
def subSqValPdfAux : Nat → List Char → List Char
  | 0, l => l
  | _, [] => []
  | fuel + 1, c :: rest =>
      if c == ':' then
        match matchSqValPdf rest with
        | some (val, r2) => c :: '"' :: (val ++ '"' :: subSqValPdfAux fuel r2)
        | none => c :: subSqValPdfAux fuel rest
      else c :: subSqValPdfAux fuel rest

/-- String-level wrapper of `subSqValPdfAux`. -/
def subSqValPdf (s : String) : String := String.mk (subSqValPdfAux (s.length + 1) s.data)

/-- Body of `(?:[^'\\]|\\.)*` followed by the closing single quote: consume
characters (escape pairs as units) up to the first unescaped single quote. -/
def takeValGen : List Char → Option (List Char × List Char)
  | [] => none
  | c :: r =>
      if c == sQuoteChar then some ([], r)
      else if c == '\\' then
        match r with
        | [] => none
        | d :: r2 => (takeValGen r2).map (fun p => (c :: d :: p.1, p.2))
      else (takeValGen r).map (fun p => (c :: p.1, p.2))

/-- Try to match `\s*'((?:[^'\\]|\\.)*)'/g` just after a `:`
(resume_generator.py line 109).  The trailing `/g` is a JavaScript regex
flag that was left inside the Python pattern, so the literal two characters
`/g` must follow the closing quote for the pattern to match at all. -/
def matchSqValGen (l : List Char) : Option (List Char × List Char) :=
  let (_, r) := takePyWs l
  match r with
  | q :: r2 =>
      if q == sQuoteChar then
        match takeValGen r2 with
        | some (val, '/' :: 'g' :: r4) => some (val, r4)
        | _ => none
      else none
  | [] => none

/-- `re.sub(r":\s*'((?:[^'\\]|\\.)*)'/g", r':"\1"', s)`
(resume_generator.py lines 108-109). -/
def subSqValGenAux : Nat → List Char → List Char
  | 0, l => l
  | _, [] => []
  | fuel + 1, c :: rest =>
      if c == ':' then
        match matchSqValGen rest with
        | some (val, r2) => c :: '"' :: (val ++ '"' :: subSqValGenAux fuel r2)
        | none => c :: subSqValGenAux fuel rest
      else c :: subSqValGenAux fuel rest

/-- String-level wrapper of `subSqValGenAux`. -/
def subSqValGen (s : String) : String := String.mk (subSqValGenAux (s.length + 1) s.data)

/-- Markdown code-fence marker (three backticks). -/
def fenceChars : List Char := "```".data

/-- Fence marker followed by the tag `json`. -/
def fenceJsonChars : List Char := "```json".data

/-- Fence marker followed by the tag `latex`. -/
def fenceLatexChars : List Char := "```latex".data

/-- `re.sub(r'```json|```', '', s)`: drop code-fence markers (alternation
prefers the longer `json`-tagged marker at the same position). -/
def subFencesAux : Nat → List Char → List Char
  | 0, l => l
  | _, [] => []
  | fuel + 1, c :: rest =>
      if List.isPrefixOf fenceJsonChars (c :: rest) then
        subFencesAux fuel (List.drop (fenceJsonChars.length - 1) rest)
      else if List.isPrefixOf fenceChars (c :: rest) then
        subFencesAux fuel (List.drop (fenceChars.length - 1) rest)
      else c :: subFencesAux fuel rest

/-- String-level wrapper of `subFencesAux`. -/
def subFences (s : String) : String := String.mk (subFencesAux (s.length + 1) s.data)

/-- `re.sub(r'"\s*\n\s*([^"])', r'" \1', s)` (resume_generator.py lines
118-119): join a line break after a closing quote onto one space.  The
whitespace run after the quote must contain a newline; the captured character
is the first char after the run, or (via regex backtracking, when that char
is a double quote or the input ends) the run's own last whitespace char. -/
def subNlQuoteAux : Nat → List Char → List Char
  | 0, l => l
  | _, [] => []
  | fuel + 1, c :: rest =>
      if c == '"' then
        let (w, r) := takePyWs rest
        if w.contains '\n' then
          match r with
          | c2 :: r2 =>
              if c2 == '"' then
                if w.dropLast.contains '\n' then
                  '"' :: ' ' :: w.getLastD ' ' :: subNlQuoteAux fuel r
                else c :: subNlQuoteAux fuel rest
              else '"' :: ' ' :: c2 :: subNlQuoteAux fuel r2
          | [] =>
              if w.dropLast.contains '\n' then
                '"' :: ' ' :: w.getLastD ' ' :: subNlQuoteAux fuel r
              else c :: subNlQuoteAux fuel rest
        else c :: subNlQuoteAux fuel rest
      else c :: subNlQuoteAux fuel rest

/-- String-level wrapper of `subNlQuoteAux`. -/
def subNlQuote (s : String) : String := String.mk (subNlQuoteAux (s.length + 1) s.data)

/-- `re.sub(r'"\s*\n\s*"', r'', s)` (resume_generator.py line 122): delete a
quote pair separated only by whitespace containing a newline. -/
def subMultilineAux : Nat → List Char → List Char
  | 0, l => l
  | _, [] => []
  | fuel + 1, c :: rest =>
      if c == '"' then
        match takePyWs rest with
        | (w, c2 :: r2) =>
            if w.contains '\n' && c2 == '"' then subMultilineAux fuel r2
            else c :: subMultilineAux fuel rest
        | (_, []) => c :: subMultilineAux fuel rest
      else c :: subMultilineAux fuel rest

/-- String-level wrapper of `subMultilineAux`. -/
def subMultiline (s : String) : String := String.mk (subMultilineAux (s.length + 1) s.data)

/-- Two literal backslashes. -/
def twoBackslashes : String := "\\\\"

/-- Four literal backslashes. -/
def fourBackslashes : String := "\\\\\\\\"

/-- The cleaning pass of resume_generator.generate_optimized_resume (lines
102-122), applied to the brace slice before the re-parse: single-quoted keys,
single-quoted values (dead `/g` pattern), backslash doubling, code fences,
newline repair, multiline-string join — in source order. -/
def cleanedJsonGen (json_str : String) : String :=
  let s1 := subSqKeys json_str
  let s2 := subSqValGen s1
  let s3 := pyReplace s2 twoBackslashes fourBackslashes
  let s4 := subFences s3
  let s5 := subNlQuote s4
  subMultiline s5

/-- The cleaning pass of pdf_parser.extract_json_from_pdf (lines 110-120):
single-quoted keys, single-quoted values (working pattern), code fences. -/
def cleanedJsonPdf (json_str : String) : String :=
  let s1 := subSqKeys json_str
  let s2 := subSqValPdf s1
  subFences s2

/-! ### resume_generator.escape_latex (lines 804-837) -/

/-- The `special_chars` replacement table of `escape_latex`, in the source's
insertion order: the order is semantically load-bearing because the
replacements are applied sequentially to the same string. -/
def latexSpecialChars : List (String × String) :=
  [("&", "\\&"), ("%", "\\%"), ("$", "\\$"), ("#", "\\#"), ("_", "\\_"),
   ("\x7b", "\\\x7b"), ("\x7d", "\\\x7d"),
   ("~", "\\textasciitilde\x7b\x7d"),
   ("^", "\\textasciicircum\x7b\x7d"),
   ("\\", "\\textbackslash\x7b\x7d"),
   ("<", "\\textless\x7b\x7d"),
   (">", "\\textgreater\x7b\x7d")]

/-- `escape_latex(text)`: apply each replacement of `latexSpecialChars` in
turn via `str.replace` (resume_generator.py lines 834-836). -/
def escape_latex (text : String) : String :=
  latexSpecialChars.foldl (fun t p => pyReplace t p.1 p.2) text

/-! ### pdf_parser.make_gemini_request_with_retry (lines 15-44) -/

/-- Outcome of one call to the generative service. -/
inductive GeminiCall where
  | success (text : String)
  | failure (msg : String)

/-- A Python exception escaping the retry helper. -/
inductive PyExc where
  | orig (msg : String)
  | nameErrorJitter

/-- Result of the retry helper: a response, or a raised exception. -/
inductive RetryResult where
  | ok (text : String)
  | raised (e : PyExc)

/-- Retry count from pdf_parser.py line 11. -/
def MAX_RETRIES : Nat := 3

/-- Test from pdf_parser.py line 31: the failure is transient when its
lowercased text mentions 503, unavailable or overloaded. -/
def isOverloadError (msg : String) : Bool :=
  let l := pyLowerStr msg
  pyInStr ("503") l || pyInStr ("unavailable") l || pyInStr ("overloaded") l

/-- One iteration of the `for attempt in range(MAX_RETRIES)` body
(pdf_parser.py lines 19-42).  On a transient failure before the last attempt
the source computes `wait_time` and then evaluates
`actual_wait_time = wait_time + jitter`; the assignment to `jitter` is
commented out (line 35), so that expression raises
`NameError: name 'jitter' is not defined`, which propagates out of the
function.  Every branch therefore returns or raises, so the loop never
reaches a second iteration and is modelled by its first. -/
def retryAttempt (calls : Nat → GeminiCall) (attempt : Nat) : RetryResult :=
  match calls attempt with
  | GeminiCall.success t => RetryResult.ok t
  | GeminiCall.failure m =>
      if isOverloadError m && attempt < MAX_RETRIES - 1 then
        RetryResult.raised PyExc.nameErrorJitter
      else RetryResult.raised (PyExc.orig m)

/-- `make_gemini_request_with_retry` with the sequence of service outcomes as
an oracle (`calls n` is what the `n`-th request would do). -/
def make_gemini_request_with_retry (calls : Nat → GeminiCall) : RetryResult :=
  retryAttempt calls 0

/-! ### utils.py: preprocess_text, extract_keywords, calculate_similarity,
identify_missing_skills

The NLTK stop-word list and the spaCy POS tagger are external data/models, so
they enter the embedding as oracle parameters (`stop`, `tag`). -/

/-- ASCII letter test (the character class `[a-zA-Z]`). -/
def asciiAlpha (c : Char) : Bool :=
  (97 ≤ c.toNat && c.toNat ≤ 122) || (65 ≤ c.toNat && c.toNat ≤ 90)

/-- Maximal runs of characters satisfying `keep` (fuel-based scanner). -/
def splitRunsAux (keep : Char → Bool) : Nat → List Char → List String
  | 0, _ => []
  | _, [] => []
  | fuel + 1, c :: r =>
      if keep c then
        String.mk (List.takeWhile keep (c :: r)) ::
          splitRunsAux keep fuel (List.dropWhile keep (c :: r))
      else splitRunsAux keep fuel r

/-- String-level wrapper of `splitRunsAux`. -/
def splitRuns (keep : Char → Bool) (s : String) : List String :=
  splitRunsAux keep (s.length + 1) s.data

/-- `preprocess_text` (utils.py lines 23-34): lowercase, delete every
character matching `[^a-zA-Z\s]`, split on whitespace (`str.split()`), drop
stop-words, and re-join with single spaces. -/
def preprocess_text (stop : String → Bool) (text : String) : String :=
  let lowered := pyLowerStr text
  let cleaned := String.mk (lowered.data.filter (fun c => asciiAlpha c || pyWsChar c))
  let tokens := (splitRuns (fun c => !pyWsChar c) cleaned).filter (fun w => !stop w)
  String.intercalate (" ") tokens

/-- Part-of-speech tag of a spaCy token, abstracted to the classes the code
tests for. -/
inductive SpacyPos where
  | noun
  | propn
  | adj
  | other

/-- A spaCy token: its surface text and POS class. -/
structure SpacyTok where
  text : String
  pos : SpacyPos

/-- The test `token.pos_ in ['NOUN', 'PROPN', 'ADJ']`. -/
def keywordPos : SpacyPos → Bool
  | SpacyPos.noun => true
  | SpacyPos.propn => true
  | SpacyPos.adj => true
  | SpacyPos.other => false

/-- Count an occurrence of `w` in the frequency table, preserving
first-occurrence insertion order (Python dict semantics). -/
def bumpFreq : List (String × Nat) → String → List (String × Nat)
  | [], w => [(w, 1)]
  | (k, n) :: r, w =>
      if k == w then (k, n + 1) :: r else (k, n) :: bumpFreq r w

/-- Insert into a descending-by-count list after all entries with a count at
least as large — together with the fold in `sortFreqDesc` this reproduces the
stable `sorted(..., key=lambda x: x[1], reverse=True)`. -/
def insertFreqDesc (x : String × Nat) : List (String × Nat) → List (String × Nat)
  | [] => [x]
  | y :: r => if y.2 < x.2 then x :: y :: r else y :: insertFreqDesc x r

/-- Stable descending sort by count. -/
def sortFreqDesc (l : List (String × Nat)) : List (String × Nat) :=
  l.foldl (fun acc x => insertFreqDesc x acc) []

/-- `extract_keywords(text, top_n)` (utils.py lines 37-60) with the tagger and
stop-word list as oracles: keep lowercased noun/proper-noun/adjective tokens
not in the stop list, count occurrences, sort by frequency descending
(stable), and return the first `top_n` words. -/
def extract_keywords (tag : String → List SpacyTok) (stop : String → Bool)
    (text : String) (top_n : Nat) : List String :=
  let keywords := (tag text).filterMap (fun t =>
    let lt := pyLowerStr t.text
    if keywordPos t.pos && !stop lt then some lt else none)
  let keyword_freq := keywords.foldl bumpFreq []
  let sorted_keywords := sortFreqDesc keyword_freq
  (sorted_keywords.take top_n).map (fun p => p.1)

/-- `identify_missing_skills(job_description, resume_text)` (utils.py lines
78-83): `list(set(job_keywords) - set(resume_keywords))` — each distinct job
keyword not among the resume keywords (the Python iteration order of the set
difference is unspecified; first-occurrence order stands in for it). -/
def identify_missing_skills (tag : String → List SpacyTok) (stop : String → Bool)
    (job_description resume_text : String) : List String :=
  let job_keywords := extract_keywords tag stop job_description 30
  let resume_keywords := extract_keywords tag stop resume_text 50
  job_keywords.dedup.filter (fun k => !resume_keywords.contains k)

/-- Word-constituent characters (the regex class `\w` over ASCII input). -/
def wordChar (c : Char) : Bool := asciiAlpha c || isDig c || c == '_'

/-- sklearn `CountVectorizer`'s default tokenizer: lowercase, then take the
maximal `\w` runs of length at least two (`token_pattern=r"(?u)\b\w\w+\b"`). -/
def cvTokenize (s : String) : List String :=
  (splitRuns wordChar (pyLowerStr s)).filter (fun w => w.length ≥ 2)

/-- Order-preserving insertion for the sorted vocabulary. -/
def insertAscStr (x : String) : List String → List String
  | [] => [x]
  | y :: r => if x < y then x :: y :: r else y :: insertAscStr x r

/-- Lexicographically sorted list (sklearn sorts its vocabulary). -/
def sortStrings (l : List String) : List String := l.foldr insertAscStr []

/-- Count vector of a document over the vocabulary. -/
def vecCount (vocab doc : List String) : List Nat :=
  vocab.map (fun v => doc.count v)

/-- `CountVectorizer().fit_transform([p1, p2]).toarray()` on the two
preprocessed texts: builds the union vocabulary and the two term-count rows;
raises `ValueError: empty vocabulary` when neither document yields a token,
exactly as sklearn does. -/
def countVectors (stop : String → Bool) (t1 t2 : String) :
    Except String (List Nat × List Nat) :=
  let d1 := cvTokenize (preprocess_text stop t1)
  let d2 := cvTokenize (preprocess_text stop t2)
  let vocab := sortStrings ((d1 ++ d2).dedup)
  if vocab.isEmpty then Except.error ("empty vocabulary")
  else Except.ok (vecCount vocab d1, vecCount vocab d2)

/-- Dot product of two count rows. -/
def dotNat (a b : List Nat) : Nat := (List.zipWith (fun x y => x * y) a b).sum

/-- Squared Euclidean norm of a count row. -/
def normSqNat (a : List Nat) : Nat := (a.map (fun x => x * x)).sum

/-- sklearn `cosine_similarity([a],[b])[0][0]`: each row is L2-normalized
(rows of norm zero are left untouched, i.e. divided by 1) and the rows are
then dotted.  Real-valued because of the square roots; the floating-point
arithmetic of the library is idealized to exact reals. -/
noncomputable def cosineSim (a b : List Nat) : ℝ :=
  (dotNat a b : ℝ) /
    ((if normSqNat a = 0 then 1 else Real.sqrt (normSqNat a)) *
     (if normSqNat b = 0 then 1 else Real.sqrt (normSqNat b)))

/-- `calculate_similarity(text1, text2)` (utils.py lines 63-75): preprocess
both texts, vectorize, and take the cosine of the two count rows. -/
noncomputable def calculate_similarity (stop : String → Bool) (t1 t2 : String) :
    Except String ℝ :=
  match countVectors stop t1 t2 with
  | Except.error e => Except.error e
  | Except.ok (va, vb) => Except.ok (cosineSim va vb)

/-! ### The regex key-value salvage (resume_generator.py lines 190-227) -/

/-- Take the body of `[^"\\]*(?:\\.[^"\\]*)*` up to the closing double quote
(escape pairs consumed as units); also consumes the closing quote. -/
def takeValDq : List Char → Option (List Char × List Char)
  | [] => none
  | c :: r =>
      if c == '"' then some ([], r)
      else if c == '\\' then
        match r with
        | [] => none
        | d :: r2 => (takeValDq r2).map (fun p => (c :: d :: p.1, p.2))
      else (takeValDq r).map (fun p => (c :: p.1, p.2))

/-- Try to match `"([^"]+)":\s*"([^"\\]*(?:\\.[^"\\]*)*)"` at the head of the
input; on success return key, value and the rest after the match. -/
def matchKV (l : List Char) : Option (List Char × List Char × List Char) :=
  match l with
  | c :: r1 =>
      if c == '"' then
        match takeUntil '"' r1 with
        | some (key, r2) =>
            if key.isEmpty then none
            else
              match r2 with
              | ':' :: r3 =>
                  let (_, r4) := takePyWs r3
                  match r4 with
                  | q :: r5 =>
                      if q == '"' then
                        match takeValDq r5 with
                        | some (val, r6) => some (key, val, r6)
                        | none => none
                      else none
                  | [] => none
              | _ => none
        | none => none
      else none
  | [] => none

/-- `re.findall(r'"([^"]+)":\s*"([^"\\]*(?:\\.[^"\\]*)*)"', s)`: scan left to
right collecting non-overlapping kvMatches. -/
def findallKVAux : Nat → List Char → List (String × String)
  | 0, _ => []
  | _, [] => []
  | fuel + 1, c :: rest =>
      match matchKV (c :: rest) with
      | some (k, v, r2) => (String.mk k, String.mk v) :: findallKVAux fuel r2
      | none => findallKVAux fuel rest

/-- String-level wrapper of `findallKVAux`. -/
def findallKV (s : String) : List (String × String) :=
  findallKVAux (s.length + 1) s.data

/-- Escaped double quote, as a two-character pattern. -/
def bsQuote : String := "\\\""

/-- Python `key.split('.')` (empty segments preserved). -/
def splitOnChar (sep : Char) : List Char → List (List Char)
  | [] => [[]]
  | c :: r =>
      if c == sep then [] :: splitOnChar sep r
      else
        match splitOnChar sep r with
        | w :: ws => (c :: w) :: ws
        | [] => [[c]]

/-- The dotted-key insertion of the salvage loop (lines 200-210): one
assignment `extracted[k] = v` for a plain key, or a walk creating nested
dicts; walking into an existing non-dict value raises `TypeError` (`none`). -/
def insertDotted (j : List (String × Json)) (parts : List String) (value : String) :
    Option (List (String × Json)) :=
  match parts with
  | [] => none
  | [k] => some (objInsert j k (Json.str value))
  | k :: rest =>
      match (pyLookup j k).getD (Json.obj []) with
      | Json.obj kvs =>
          (insertDotted kvs rest value).map (fun kvs2 => objInsert j k (Json.obj kvs2))
      | _ => none

/-- The `for key, value in kvMatches` body: clean the value (unescape `\"`) and
insert under the (possibly dotted) key; an exception anywhere abandons the
whole reconstruction (the enclosing `try` spans the loop). -/
def salvageBuild : List (String × String) → List (String × Json) →
    Option (List (String × Json))
  | [], acc => some acc
  | (k, v) :: rest, acc =>
      let vc := pyReplace v bsQuote ("\"")
      let parts := (splitOnChar ('.') k.data).map String.mk
      match insertDotted acc parts vc with
      | some acc2 => salvageBuild rest acc2
      | none => none

/-- The whole regex-salvage step: `none` means execution falls through to the
final fallback (no kvMatches, or an exception during reconstruction); on
success the required sections are backfilled (lines 216-223). -/
def salvage (json_str : String) : Option Json :=
  let kvMatches := findallKV json_str
  if kvMatches.isEmpty then none
  else
    match salvageBuild kvMatches [] with
    | none => none
    | some kvs =>
        if kvs.isEmpty then none
        else
          let k1 := if kvs.any (fun p => p.1 == "contact_info") then kvs
            else objInsert kvs ("contact_info") (Json.obj [("name", Json.str ("Resume Owner"))])
          let k2 := if k1.any (fun p => p.1 == "experience") then k1
            else objInsert k1 ("experience") (Json.arr [])
          let k3 := if k2.any (fun p => p.1 == "education") then k2
            else objInsert k2 ("education") (Json.arr [])
          some (Json.obj k3)

/-! ### The Gemini fix loop (resume_generator.py lines 132-188) -/

/-- First occurrence of `pat`: the characters before it and those after it. -/
def splitAtSeq (pat : List Char) : List Char → Option (List Char × List Char)
  | [] => none
  | c :: r =>
      if List.isPrefixOf pat (c :: r) then some ([], List.drop pat.length (c :: r))
      else (splitAtSeq pat r).map (fun p => (c :: p.1, p.2))

/-- `re.search(r'```(?:TAG)?\s*([\s\S]+?)\s*```', s).group(1)`: content of
the first code-fence block, for a given optional tag word.  The lazy body is
at least one character, so when everything between the fences is whitespace
the match degenerates to the last whitespace character (regex backtracking);
fences with no characters at all between them do not match (`none`, modelling
the `AttributeError` from `.group` on `None`). -/
def regexFenceExtractTag (tag : List Char) (s : String) : Option String :=
  match splitAtSeq fenceChars s.data with
  | none => none
  | some (_, afterOpen) =>
      let afterTag :=
        if List.isPrefixOf tag afterOpen then afterOpen.drop tag.length else afterOpen
      let (w, body) := takePyWs afterTag
      match splitAtSeq fenceChars body with
      | some (mid, _) =>
          if mid.isEmpty then
            if w.isEmpty then none
            else some (String.mk [w.getLastD ' '])
          else some (String.mk ((mid.reverse.dropWhile pyWsChar).reverse))
      | none => none

/-- The `json`-tagged instance used by the fix loop. -/
def regexFenceExtract (s : String) : Option String :=
  regexFenceExtractTag ("json".data) s

/-- Lines 162-164 of the fix loop: when the stripped response starts with a
code fence, extract the fenced content; a failed search raises
`AttributeError` (→ `none`), which the loop's handler turns into `continue`. -/
def stripFences163 (s : String) : Option String :=
  if List.isPrefixOf fenceChars s.data then regexFenceExtract s
  else some s

/-- The `for attempt in range(1, 4)` repair loop, with the service outcomes as
an oracle (`fixes n` is the result of the request made on attempt `n`).
Returns the parsed record if an attempt succeeds, together with the final
value of the `json_str` variable (the later regex salvage reads it). -/
def fixLoopAux (fixes : Nat → Except Unit String) (attempt : Nat) :
    Nat → String → Option Json × String
  | 0, json_str => (none, json_str)
  | rem + 1, json_str =>
      match fixes attempt with
      | Except.error _ => fixLoopAux fixes (attempt + 1) rem json_str
      | Except.ok t =>
          let ft := pyStrip t
          match stripFences163 ft with
          | none => fixLoopAux fixes (attempt + 1) rem json_str
          | some ft2 =>
              match braceSlice ft2 with
              | none => fixLoopAux fixes (attempt + 1) rem json_str
              | some fixed_json =>
                  match pyJsonParse fixed_json with
                  | some v => (some v, json_str)
                  | none => fixLoopAux fixes (attempt + 1) rem fixed_json

/-- Entry point of the fix loop (attempts 1, 2, 3). -/
def fixLoop (fixes : Nat → Except Unit String) (json_str : String) :
    Option Json × String :=
  fixLoopAux fixes 1 3 json_str

/-! ### resume_generator.generate_optimized_resume (lines 18-273) -/

/-- The minimal fallback resume built from the original record (lines 234-245
and identically lines 256-267): every field is fetched with `.get`, so the
construction raises `AttributeError` (`none`) when the record — or its
`contact_info` — is not a dict.  When the line-232 construction raises, the
outer handler rebuilds the very same value and the bare `except` then returns
`None`, so one evaluation models both attempts. -/
def mkFallback (rj : Json) : Option Json := do
  let ci ← pyGet rj ("contact_info") (Json.obj [])
  let nm ← pyGet ci ("name") (Json.str ("Resume Owner"))
  let em ← pyGet ci ("email") (Json.str (""))
  let ph ← pyGet ci ("phone") (Json.str (""))
  let lc ← pyGet ci ("location") (Json.str (""))
  let sm ← pyGet rj ("summary") (Json.str ("Professional with relevant experience and skills."))
  let sk ← pyGet rj ("skills") (Json.obj [("technical_skills", Json.arr [])])
  let ex ← pyGet rj ("experience") (Json.arr [])
  let ed ← pyGet rj ("education") (Json.arr [])
  return Json.obj [
    ("contact_info", Json.obj [("name", nm), ("email", em), ("phone", ph), ("location", lc)]),
    ("summary", sm), ("skills", sk), ("experience", ex), ("education", ed)]

/-- `generate_optimized_resume(resume_json, ...)` as a function of the
original record and the service-call oracles (`first` is the main generation
request, `fixes` the repair loop's requests).  The prompt text does not
influence the model since the oracles decide each call's outcome.  The result
is the returned record, or `none` for Python `None` (the bare `except` at
line 271).  Control-flow notes: a direct parse to a non-dict raises
`ValueError` *after* rebinding the local `resume_json` to the parsed value,
so the outer handler then builds the fallback from that non-dict and dies
with `AttributeError`, returning `None`; a raw text without a brace pair
raises `ValueError` (line 229) and lands in the same outer handler, which
rebuilds the fallback from the *original* record. -/
def generate_optimized_resume (resume_json : Json) (first : Except Unit String)
    (fixes : Nat → Except Unit String) : Option Json :=
  match first with
  | Except.error _ => mkFallback resume_json
  | Except.ok text =>
      match pyJsonParse text with
      | some v => if v.isObj then some v else mkFallback v
      | none =>
          match braceSlice text with
          | none => mkFallback resume_json
          | some json_str =>
              match pyJsonParse (cleanedJsonGen json_str) with
              | some v2 => some v2
              | none =>
                  match fixLoop fixes json_str with
                  | (some v3, _) => some v3
                  | (none, js2) =>
                      match salvage js2 with
                      | some j => some j
                      | none => mkFallback resume_json

/-! ### pdf_parser.extract_json_from_pdf (lines 47-197), repair segment -/

/-- The constant fallback structure of pdf_parser (lines 183-194). -/
def pdfFallbackJson : Json := Json.obj [
  ("contact_info", Json.obj [
    ("name", Json.str ("Resume Owner")), ("email", Json.str ("")),
    ("phone", Json.str ("")), ("location", Json.str (""))]),
  ("summary", Json.str ("Professional with experience and skills.")),
  ("skills", Json.obj [("technical_skills", Json.arr [])]),
  ("experience", Json.arr []),
  ("education", Json.arr [])]

/-- The parse-and-repair segment of `extract_json_from_pdf`, once the raw
extraction response is in hand: direct parse, brace slice, the pdf cleaning
pass, one model-assisted fix (lines 136-170, its stripping reproduced below),
then the constant fallback; every failure funnels into the outer handler
(line 179) which returns `pdfFallbackJson`. -/
def extract_json_from_pdf (first : Except Unit String)
    (fixCall : Except Unit String) : Json :=
  match first with
  | Except.error _ => pdfFallbackJson
  | Except.ok text =>
      match pyJsonParse text with
      | some v => v
      | none =>
          match braceSlice text with
          | none => pdfFallbackJson
          | some json_str =>
              match pyJsonParse (cleanedJsonPdf json_str) with
              | some v => v
              | none =>
                  match fixCall with
                  | Except.error _ => pdfFallbackJson
                  | Except.ok t =>
                      let ft := pyStrip t
                      let ft2 :=
                        if List.isPrefixOf fenceChars ft.data &&
                            List.isSuffixOf fenceChars ft.data then
                          (braceSlice ft).getD ("")
                        else ft
                      match pyJsonParse ft2 with
                      | some v => v
                      | none => pdfFallbackJson

/-! ### pdf_parser.read_job_description (lines 234-257) -/

/-- Filesystem-and-reader oracle for `read_job_description`: `os.path.exists`
plus the two file readers the function can delegate to. -/
structure JobFS where
  pathExists : String → Bool
  pdfText : String → Except Unit String
  txtRead : String → Except Unit String

/-- Result of `read_job_description`: a text, the `NotImplementedError` the
docx branch raises, or a propagated reader exception. -/
inductive JobDescResult where
  | ok (text : String)
  | notImplementedDocx
  | raised

/-- Python `s.endswith(suffix)`. -/
def strEndsWith (s suffix : String) : Bool := List.isSuffixOf suffix.data s.data

/-- `read_job_description(job_input)`: when the input is an existing path with
a `.txt`/`.docx`/`.pdf` suffix (checked on the lowercased string), dispatch to
the matching reader; otherwise the input string itself is the job text. -/
def read_job_description (fs : JobFS) (job_input : String) : JobDescResult :=
  let low := pyLowerStr job_input
  if fs.pathExists job_input &&
      (strEndsWith low (".txt") || strEndsWith low (".docx") || strEndsWith low (".pdf")) then
    if strEndsWith low (".pdf") then
      match fs.pdfText job_input with
      | Except.ok t => JobDescResult.ok t
      | Except.error _ => JobDescResult.raised
    else if strEndsWith low (".docx") then JobDescResult.notImplementedDocx
    else
      match fs.txtRead job_input with
      | Except.ok t => JobDescResult.ok t
      | Except.error _ => JobDescResult.raised
  else JobDescResult.ok job_input

/-! ### resume_generator.create_resume_docx (lines 276-417)

A python-docx paragraph is modelled by its text together with the formatting
attributes this renderer ever sets: bold/italic on the single run it adds,
the `List Bullet` style, the font size, and centering. -/

/-- Python for-loop accumulation over a fallible per-element step (`mapM` in
the `Option` monad, written out so proofs can follow the loop structurally). -/
def mapMOpt (f : Json → Option B) : List Json → Option (List B)
  | [] => some []
  | x :: xs =>
      match f x with
      | none => none
      | some y =>
          match mapMOpt f xs with
          | none => none
          | some rest => some (y :: rest)

/-- One paragraph of the produced Word document. -/
structure Para where
  text : String
  bold : Bool
  italic : Bool
  bullet : Bool
  size : Option Nat
  center : Bool
deriving DecidableEq

/-- Paragraph with default formatting. -/
def plainPara (t : String) : Para := ⟨t, false, false, false, none, false⟩

/-- Paragraph whose run is bold (also the shape of every section heading). -/
def boldPara (t : String) : Para := ⟨t, true, false, false, none, false⟩

/-- Paragraph whose run is italic. -/
def italicPara (t : String) : Para := ⟨t, false, true, false, none, false⟩

/-- Paragraph with the `List Bullet` style. -/
def bulletPara (t : String) : Para := ⟨t, false, false, true, none, false⟩

/-- The spacer `doc.add_paragraph()`. -/
def blankPara : Para := plainPara ("")

/-- The `contact_info` list of lines 299-305: the three base fields plus the
linkedin entry when the key is present. -/
def contactItems (ci em ph lc : Json) (hasLi : Bool) : Option (List Json) :=
  match hasLi with
  | true => (pyIndex ci ("linkedin")).map (fun li => [em, ph, lc, li])
  | false => some [em, ph, lc]

/-- Contact block (lines 291-307): centred 16pt bold name, centred pipe-joined
contact line (`filter(None, ...)` drops falsy entries; `join` then requires
strings). -/
def headerParas (rj : Json) : Option (List Para) := do
  let ci ← pyIndex rj ("contact_info")
  let nm ← pyIndex ci ("name")
  let nmS ← pyStrStrict nm
  let em ← pyGet ci ("email") (Json.str (""))
  let ph ← pyGet ci ("phone") (Json.str (""))
  let lc ← pyGet ci ("location") (Json.str (""))
  let hasLi ← pyContains ci ("linkedin")
  let items ← contactItems ci em ph lc hasLi
  let strs ← mapMOpt pyStrStrict (items.filter pyTruthy)
  return [⟨nmS, true, false, false, some 16, true⟩,
          ⟨String.intercalate (" | ") strs, false, false, false, none, true⟩]

/-- Summary block (lines 309-313). -/
def summaryParas (rj : Json) : Option (List Para) := do
  let sm ← pyIndex rj ("summary")
  let smS ← pyStrStrict sm
  return [blankPara, boldPara ("SUMMARY"), plainPara smS]

/-- `all_skills.extend(skills[k])` for one optional category key. -/
def extendSkills (kvs : List (String × Json)) (k : String) : Option (List Json) :=
  if kvs.any (fun p => p.1 == k) then
    match pyLookup kvs k with
    | some v => pyIter v
    | none => none
  else some []

/-- The `all_skills` accumulation of lines 320-329: flatten a list as-is, or
a dict's technical/soft/other categories in that order. -/
def skillsJsonList (sk : Json) : Option (List Json) :=
  match sk with
  | Json.arr xs => some xs
  | Json.obj kvs => do
      let t ← extendSkills kvs ("technical_skills")
      let s ← extendSkills kvs ("soft_skills")
      let o ← extendSkills kvs ("other_skills")
      pure (t ++ s ++ o)
  | _ => some []

/-- Skills block continued (lines 315-330). -/
def skillsParas (rj : Json) : Option (List Para) := do
  let sk ← pyIndex rj ("skills")
  let all_skills ← skillsJsonList sk
  let strs ← mapMOpt pyStrStrict all_skills
  return [blankPara, boldPara ("SKILLS"), plainPara (String.intercalate (", ") strs)]

/-- One experience entry (lines 337-347): bold `title - company` line
(f-string, so any value converts), italic dates (a run, so strict string),
bulleted description items. -/
def jobParas (job : Json) : Option (List Para) := do
  let t ← pyIndex job ("title")
  let c ← pyIndex job ("company")
  let d ← pyIndex job ("dates")
  let dS ← pyStrStrict d
  let desc ← pyIndex job ("description")
  let bullets ← pyIter desc
  let bstrs ← mapMOpt pyStrStrict bullets
  return boldPara (pyStr t ++ " - " ++ pyStr c) :: italicPara dS :: bstrs.map bulletPara

/-- Experience block (lines 332-347). -/
def experienceParas (rj : Json) : Option (List Para) := do
  let e ← pyIndex rj ("experience")
  let jobs ← pyIter e
  let blocks ← mapMOpt jobParas jobs
  return blankPara :: boldPara ("EXPERIENCE") :: blocks.flatten

/-- One education entry (lines 354-362): bold `degree - institution`, italic
dates, optional details paragraph when present and truthy. -/
def eduParas (edu : Json) : Option (List Para) := do
  let dg ← pyIndex edu ("degree")
  let inst ← pyIndex edu ("institution")
  let dt ← pyIndex edu ("dates")
  let dtS ← pyStrStrict dt
  let hasDet ← pyContains edu ("details")
  let line := boldPara (pyStr dg ++ " - " ++ pyStr inst)
  if hasDet then do
    let dv ← pyIndex edu ("details")
    if pyTruthy dv then do
      let dvS ← pyStrStrict dv
      return [line, italicPara dtS, plainPara dvS]
    else return [line, italicPara dtS]
  else return [line, italicPara dtS]

/-- Education block (lines 349-362). -/
def educationParas (rj : Json) : Option (List Para) := do
  let e ← pyIndex rj ("education")
  let edus ← pyIter e
  let blocks ← mapMOpt eduParas edus
  return blankPara :: boldPara ("EDUCATION") :: blocks.flatten

/-- One project entry (lines 370-374): bold title run, description run. -/
def projBlock (p : Json) : Option (List Para) := do
  let t ← pyIndex p ("title")
  let tS ← pyStrStrict t
  let d ← pyIndex p ("description")
  let dS ← pyStrStrict d
  return [boldPara tS, plainPara dS]

/-- Projects block (lines 364-374), emitted only when the key is present and
its value truthy. -/
def projectsParas (rj : Json) : Option (List Para) := do
  let hasP ← pyContains rj ("projects")
  if hasP then do
    let pv ← pyIndex rj ("projects")
    if pyTruthy pv then do
      let ps ← pyIter pv
      let blocks ← mapMOpt projBlock ps
      return blankPara :: boldPara ("PROJECTS") :: blocks.flatten
    else return []
  else return []

/-- One certification entry (lines 382-387). -/
def certBlock (c : Json) : Option (List Para) := do
  let n ← pyIndex c ("name")
  let i ← pyIndex c ("issuer")
  let d ← pyIndex c ("date")
  let dS ← pyStrStrict d
  return [boldPara (pyStr n ++ " - " ++ pyStr i), italicPara dS]

/-- Certifications block (lines 376-387). -/
def certsParas (rj : Json) : Option (List Para) := do
  let hasC ← pyContains rj ("certifications")
  if hasC then do
    let cv ← pyIndex rj ("certifications")
    if pyTruthy cv then do
      let cs ← pyIter cv
      let blocks ← mapMOpt certBlock cs
      return blankPara :: boldPara ("CERTIFICATIONS") :: blocks.flatten
    else return []
  else return []

/-- Activities block (lines 389-398): one bullet per entry. -/
def activitiesParas (rj : Json) : Option (List Para) := do
  let hasA ← pyContains rj ("activities")
  if hasA then do
    let av ← pyIndex rj ("activities")
    if pyTruthy av then do
      let items ← pyIter av
      let strs ← mapMOpt pyStrStrict items
      return blankPara :: boldPara ("EXTRA-CURRICULAR ACTIVITIES") :: strs.map bulletPara
    else return []
  else return []

/-- Leadership block (lines 400-409): one bullet per entry. -/
def leadershipParas (rj : Json) : Option (List Para) := do
  let hasL ← pyContains rj ("leadership")
  if hasL then do
    let lv ← pyIndex rj ("leadership")
    if pyTruthy lv then do
      let items ← pyIter lv
      let strs ← mapMOpt pyStrStrict items
      return blankPara :: boldPara ("LEADERSHIP") :: strs.map bulletPara
    else return []
  else return []

/-- `create_resume_docx(resume_json)`: the saved document's paragraph list.
An exception anywhere (missing key, wrong type) is caught by the function's
`except`, which returns `False` without saving — modelled as `none`. -/
def create_resume_docx (rj : Json) : Option (List Para) := do
  let hd ← headerParas rj
  let sm ← summaryParas rj
  let sk ← skillsParas rj
  let ex ← experienceParas rj
  let ed ← educationParas rj
  let pj ← projectsParas rj
  let ct ← certsParas rj
  let ac ← activitiesParas rj
  let ld ← leadershipParas rj
  return hd ++ sm ++ sk ++ ex ++ ed ++ pj ++ ct ++ ac ++ ld

/-! ### resume_generator._create_default_latex_resume (lines 842-1116)

The builder assembles `latex_content`, a list of lines later joined with
newlines.  Literal braces are written `\x7b`/`\x7d` in the string literals
below. -/

/-- The fixed preamble lines (source lines 858-864). -/
def latexHeaderLines : List String :=
  ["\\documentclass\x7bresume\x7d",
   "\\usepackage[left=0.4 in,top=0.4in,right=0.4 in,bottom=0.4in]\x7bgeometry\x7d",
   "\\newcommand\x7b\\tab\x7d[1]\x7b\\hspace\x7b.2667\\textwidth\x7d\\rlap\x7b#1\x7d\x7d",
   "\\newcommand\x7b\\itab\x7d[1]\x7b\\hspace\x7b0em\x7d\\rlap\x7b#1\x7d\x7d"]

/-- `\href{url}{display}`. -/
def hrefLatex (url disp : String) : String :=
  "\\href\x7b" ++ url ++ "\x7d\x7b" ++ disp ++ "\x7d"

/-- The email element of the second address block (lines 889-890). -/
def emailPart (email : String) : List String :=
  if email.isEmpty then []
  else ["\\href\x7bmailto:" ++ email ++ "\x7d\x7b" ++ email ++ "\x7d"]

/-- The LinkedIn element (lines 892-897). -/
def linkedinPart (linkedin : String) : List String :=
  if linkedin.isEmpty then []
  else if pyInStr ("linkedin.com") linkedin then [hrefLatex linkedin ("LinkedIn")]
  else [linkedin]

/-- The GitHub element (lines 899-904). -/
def githubPart (github : String) : List String :=
  if github.isEmpty then []
  else if pyInStr ("github.com") github then [hrefLatex github ("GitHub")]
  else [github]

/-- The website element (lines 906-913): long URLs display their domain. -/
def websitePart (website : String) : List String :=
  if website.isEmpty then []
  else if website.length > 30 then
    let bare := pyReplace (pyReplace website ("https://") ("")) ("http://") ("")
    let domain := String.mk ((splitOnChar ('/') bare.data).headD [])
    [hrefLatex website domain]
  else [hrefLatex website website]

/-- Name and address blocks (lines 866-918). -/
def latexContactLines (rj : Json) : Option (List String) := do
  let ci ← pyIndex rj ("contact_info")
  let nmJ ← pyGet ci ("name") (Json.str ("Firstname Lastname"))
  let phJ ← pyGet ci ("phone") (Json.str (""))
  let lcJ ← pyGet ci ("location") (Json.str (""))
  let emJ ← pyGet ci ("email") (Json.str (""))
  let liJ ← pyGet ci ("linkedin") (Json.str (""))
  let wsJ ← pyGet ci ("website") (Json.str (""))
  let ghJ ← pyGet ci ("github") (Json.str (""))
  let name := escape_latex (pyStr nmJ)
  let phone := escape_latex (pyStr phJ)
  let location := escape_latex (pyStr lcJ)
  let email := escape_latex (pyStr emJ)
  let linkedin := escape_latex (pyStr liJ)
  let website := escape_latex (pyStr wsJ)
  let github := escape_latex (pyStr ghJ)
  let contact_parts :=
    emailPart email ++ linkedinPart linkedin ++ githubPart github ++ websitePart website
  let contact_line2 :=
    if contact_parts.isEmpty then "example@email.com"
    else String.intercalate (" \\\\ ") contact_parts
  return ["\\name\x7b" ++ name ++ "\x7d",
          "\\address\x7b" ++ (phone ++ " \\\\ " ++ location) ++ "\x7d",
          "\\address\x7b" ++ contact_line2 ++ "\x7d"]

/-- OBJECTIVE section (lines 923-930). -/
def latexObjectiveLines (rj : Json) : Option (List String) := do
  let ob ← pyGet rj ("objective")
    (Json.str ("Professional seeking opportunities to apply skills and experience."))
  let smJ ← pyGet rj ("summary") ob
  let summary_text := escape_latex (pyStr smJ)
  return ["\\begin\x7brSection\x7d\x7bOBJECTIVE\x7d", "",
          "\x7b" ++ summary_text ++ "\x7d", "", "\\end\x7brSection\x7d"]

/-- One education entry (lines 937-947). -/
def latexEduEntry (edu : Json) : Option (List String) := do
  let dg ← pyGet edu ("degree") (Json.str (""))
  let inst ← pyGet edu ("institution") (Json.str (""))
  let dt ← pyGet edu ("dates") (Json.str (""))
  let de ← pyGet edu ("details") (Json.str (""))
  let degree := escape_latex (pyStr dg)
  let institution := escape_latex (pyStr inst)
  let dates := escape_latex (pyStr dt)
  let details := escape_latex (pyStr de)
  let line1 := "\x7b\\bf " ++ degree ++ "\x7d, " ++ institution ++
    " \\hfill \x7b" ++ dates ++ "\x7d"
  let detLines := if details.isEmpty then [] else ["Relevant Coursework: " ++ details]
  return line1 :: detLines ++ [""]

/-- Education section (lines 933-949). -/
def latexEducationLines (rj : Json) : Option (List String) := do
  let hasE ← pyContains rj ("education")
  if hasE then do
    let ev ← pyIndex rj ("education")
    if pyTruthy ev then do
      let edus ← pyIter ev
      let entries ← mapMOpt latexEduEntry edus
      return ("\\begin\x7brSection\x7d\x7bEducation\x7d" :: "" ::
        entries.flatten ++ ["\\end\x7brSection\x7d"])
    else return []
  else return []

/-- The tabular header of the skills section (line 956). -/
def latexTabularLine : String :=
  "\\begin\x7btabular\x7d\x7b @\x7b\x7d >\x7b\\bfseries\x7dl @\x7b\\hspace\x7b4ex\x7d\x7d p\x7b13cm\x7d \x7d"

/-- One category row of the skills table (lines 964-979). -/
def skillRow (kvs : List (String × Json)) (k disp : String) : Option (List String) :=
  if kvs.any (fun p => p.1 == k) then
    match pyLookup kvs k with
    | some v =>
        (pyIter v).map (fun items =>
          [disp ++ " & " ++
            String.intercalate (", ") (items.map (fun x => escape_latex (pyStr x))) ++
            " \\\\"])
    | none => none
  else some []

/-- SKILLS section (lines 952-982); note the guard is only key presence. -/
def latexSkillsLines (rj : Json) : Option (List String) := do
  let hasS ← pyContains rj ("skills")
  if hasS then do
    let sk ← pyIndex rj ("skills")
    let rows : List String ←
      match sk with
      | Json.arr xs =>
          some ["Skills & " ++
            String.intercalate (", ") (xs.map (fun x => escape_latex (pyStr x))) ++ " \\\\"]
      | Json.obj kvs => do
          let t ← skillRow kvs ("technical_skills") ("Technical Skills")
          let s ← skillRow kvs ("soft_skills") ("Soft Skills")
          let o ← skillRow kvs ("other_skills") ("Other Skills")
          pure (t ++ s ++ o)
      | _ => some []
    return ["\\begin\x7brSection\x7d\x7bSKILLS\x7d", "", latexTabularLine] ++ rows ++
      ["\\end\x7btabular\x7d\\\\", "\\end\x7brSection\x7d"]
  else return []

/-- One experience entry (lines 989-1009). -/
def latexJobEntry (job : Json) : Option (List String) := do
  let tJ ← pyGet job ("title") (Json.str (""))
  let cJ ← pyGet job ("company") (Json.str (""))
  let dJ ← pyGet job ("dates") (Json.str (""))
  let lJ ← pyGet job ("location") (Json.str (""))
  let descJ ← pyGet job ("description") (Json.arr [])
  let title := escape_latex (pyStr tJ)
  let company := escape_latex (pyStr cJ)
  let dates := escape_latex (pyStr dJ)
  let location := escape_latex (pyStr lJ)
  let bullets ← pyIter descJ
  return ["\\textbf\x7b" ++ title ++ "\x7d \\hfill " ++ dates ++ "\\\\",
          company ++ " \\hfill \\textit\x7b" ++ location ++ "\x7d",
          "\\begin\x7bitemize\x7d", "    \\itemsep -3pt \x7b\x7d "] ++
    bullets.map (fun b => "     \\item " ++ escape_latex (pyStr b)) ++
    ["\\end\x7bitemize\x7d", ""]

/-- EXPERIENCE section (lines 985-1011). -/
def latexExperienceLines (rj : Json) : Option (List String) := do
  let hasX ← pyContains rj ("experience")
  if hasX then do
    let xv ← pyIndex rj ("experience")
    if pyTruthy xv then do
      let jobs ← pyIter xv
      let entries ← mapMOpt latexJobEntry jobs
      return ("\\begin\x7brSection\x7d\x7bEXPERIENCE\x7d" :: "" ::
        entries.flatten ++ ["\\end\x7brSection\x7d"])
    else return []
  else return []

/-- One project entry (lines 1018-1051): dict projects get a title line with
optional link and technologies plus a description (list or scalar); bare
string projects become a single item; other shapes are skipped. -/
def latexProjEntry (p : Json) : Option (List String) :=
  match p with
  | Json.obj _ => do
      let tJ ← pyGet p ("title") (Json.str (""))
      let dJ ← pyGet p ("description") (Json.str (""))
      let teJ ← pyGet p ("technologies") (Json.str (""))
      let uJ ← pyGet p ("url") (Json.str (""))
      let title := escape_latex (pyStr tJ)
      let technologies := escape_latex (pyStr teJ)
      let url := escape_latex (pyStr uJ)
      let tt1 :=
        if !url.isEmpty then
          "\\textbf\x7b" ++ title ++ "\x7d \\href\x7b" ++ url ++ "\x7d\x7b(Link)\x7d"
        else "\\textbf\x7b" ++ title ++ "\x7d"
      let tt2 := if !technologies.isEmpty then tt1 ++ " - " ++ technologies else tt1
      let descLines : List String :=
        if pyTruthy dJ then
          match dJ with
          | Json.arr bs =>
              "\\begin\x7bitemize\x7d" ::
                bs.map (fun b => "    \\item " ++ escape_latex (pyStr b)) ++
                ["\\end\x7bitemize\x7d"]
          | _ => ["    " ++ escape_latex (pyStr dJ)]
        else []
      return ("\\item " ++ tt2) :: descLines
  | Json.str s => some ["\\item " ++ escape_latex s]
  | _ => some []

/-- PROJECTS section (lines 1014-1053). -/
def latexProjectsLines (rj : Json) : Option (List String) := do
  let hasP ← pyContains rj ("projects")
  if hasP then do
    let pv ← pyIndex rj ("projects")
    if pyTruthy pv then do
      let ps ← pyIter pv
      let entries ← mapMOpt latexProjEntry ps
      return ("\\begin\x7brSection\x7d\x7bPROJECTS\x7d" :: "\\vspace\x7b-1.25em\x7d" ::
        entries.flatten ++ ["\\end\x7brSection\x7d"])
    else return []
  else return []

/-- An itemized optional section — activities (lines 1056-1067) and
leadership (lines 1070-1080) share this shape. -/
def latexItemSection (rj : Json) (key heading : String) : Option (List String) := do
  let hasK ← pyContains rj key
  if hasK then do
    let v ← pyIndex rj key
    if pyTruthy v then do
      let items ← pyIter v
      return ("\\begin\x7brSection\x7d\x7b" ++ heading ++ "\x7d") ::
        "\\begin\x7bitemize\x7d" ::
        items.map (fun a => "    \\item " ++ escape_latex (pyStr a)) ++
        ["\\end\x7bitemize\x7d", "\\end\x7brSection\x7d"]
    else return []
  else return []

/-- `_create_default_latex_resume(resume_json)`: the written `.tex` content,
or `none` when the builder's `except` fires (returning `False`, no file). -/
def create_default_latex_resume (rj : Json) : Option String := do
  let contact ← latexContactLines rj
  let objective ← latexObjectiveLines rj
  let education ← latexEducationLines rj
  let skills ← latexSkillsLines rj
  let experience ← latexExperienceLines rj
  let projects ← latexProjectsLines rj
  let activities ← latexItemSection rj ("activities") ("Extra-Curricular Activities")
  let leadership ← latexItemSection rj ("leadership") ("Leadership")
  return String.intercalate ("\n")
    (latexHeaderLines ++ contact ++ ["\\begin\x7bdocument\x7d"] ++ objective ++
     education ++ skills ++ experience ++ projects ++ activities ++ leadership ++
     ["\\end\x7bdocument\x7d"])

/-! ### resume_generator.analyze_and_map_template (lines 494-591) and
create_resume_latex (lines 420-491) -/

/-- `analyze_and_map_template(template_content, resume_json)` with the
service outcome as an oracle.  On success the response is stripped of code
fences (lines 564-578: the `latex`-tagged search first, then plain marker
removal); the `\documentclass` check (lines 580-587) only selects a log
message — both branches return the content.  Any exception returns `None`
(line 589-591). -/
def analyze_and_map_template (template_content : String) (rj : Json)
    (svc : Except Unit String) : Option String :=
  match svc with
  | Except.error _ => none
  | Except.ok t =>
      let c0 := pyStrip t
      let c1 :=
        if pyInStr ("```") c0 then
          match regexFenceExtractTag ("latex".data) c0 with
          | some m => pyStrip m
          | none => pyStrip (pyReplace (pyReplace c0 ("```latex") ("")) ("```") (""))
        else c0
      some c1

/-- Which strategy produced the written LaTeX file. -/
inductive LatexStrategy where
  | generative
  | defaultBuilder
deriving DecidableEq

/-- Outcome of `create_resume_latex`: a written file with its content and the
strategy that produced it, or failure (`False` with nothing written). -/
inductive LatexResult where
  | written (strat : LatexStrategy) (content : String)
  | failed
deriving DecidableEq

/-- The default-builder fallback branch shared by the failure paths. -/
def defaultLatexResult (rj : Json) : LatexResult :=
  match create_default_latex_resume rj with
  | some c => LatexResult.written LatexStrategy.defaultBuilder c
  | none => LatexResult.failed

/-- `create_resume_latex(resume_json)` as a function of whether the template
asset exists, its content, and the generative-service outcome.  A missing
template goes straight to `_create_default_latex_resume` (lines 439-442); a
generative result that is `None` or empty falls back to the default builder
(lines 451, 481-485); a non-empty generative result is written as-is — there
is no validation gate between `analyze_and_map_template` and the file write.
The `resume.cls` copy on the success path is a side effect outside the model. -/
def create_resume_latex (templateExists : Bool) (template_content : String)
    (svc : Except Unit String) (rj : Json) : LatexResult :=
  if !templateExists then defaultLatexResult rj
  else
    match analyze_and_map_template template_content rj svc with
    | some content =>
        if content == "" then defaultLatexResult rj
        else LatexResult.written LatexStrategy.generative content
    | none => defaultLatexResult rj

/-! ### A record-state monad for the mutation claim

Rendering functions receive the record by reference; to state that they do
not mutate it, they are wrapped in a state monad whose state is the record.
The API offers both reading and writing; the renderers are built from the
read side only, and the frame theorem certifies that the state they return is
their input. -/

/-- Computations over the mutable record. -/
def RM (α : Type) : Type := Json → Option (α × Json)

/-- Monadic return. -/
def rmPure {α : Type} (a : α) : RM α := fun s => some (a, s)

/-- Monadic bind. -/
def rmBind {α β : Type} (m : RM α) (f : α → RM β) : RM β := fun s =>
  match m s with
  | none => none
  | some (a, s2) => f a s2

/-- Read the whole record. -/
def rmRead : RM Json := fun s => some (s, s)

/-- Overwrite the record (expressible, but unused by the renderers). -/
def rmWrite (j : Json) : RM Unit := fun _ => some ((), j)

/-- Lift a pure fallible computation. -/
def rmLift {α : Type} (o : Option α) : RM α := fun s =>
  match o with
  | none => none
  | some a => some (a, s)

/-- `create_resume_docx` as a record-state computation. -/
def create_resume_docx_st : RM (List Para) :=
  rmBind rmRead (fun rj => rmLift (create_resume_docx rj))

/-- `_create_default_latex_resume` as a record-state computation. -/
def create_default_latex_resume_st : RM String :=
  rmBind rmRead (fun rj => rmLift (create_default_latex_resume rj))

/-! ### Concrete sample inputs used by witnesses and counterexamples -/

/-- Empty stop-word oracle (the degenerate-input claims hold for any list). -/
def stopNone : String → Bool := fun _ => false

/-- A generative service that always raises. -/
def errSvc : Nat → Except Unit String := fun _ => Except.error ()

/-- The malformed single-quoted response of end-to-end scenario B. -/
def rawAnnStr : String :=
  "\x7b" ++ sQuote ++ "name" ++ sQuote ++ ": " ++ sQuote ++ "Ann" ++ sQuote ++ "\x7d"

/-- The record scenario B expects after repair. -/
def annRecord : Json := Json.obj [("name", Json.str ("Ann"))]

/-- A well-formed original record handed to the content rewriter. -/
def origRecord0 : Json := Json.obj [
  ("contact_info", Json.obj [("name", Json.str ("Alice"))]),
  ("summary", Json.str ("Engineer."))]

/-- The fallback record the repair contract promises for `origRecord0`. -/
def fallback0 : Json := (mkFallback origRecord0).getD Json.null

/-- A record with every required field and no optional section. -/
def recNoProj : Json := Json.obj [
  ("contact_info", Json.obj [("name", Json.str ("Ann Lee")), ("email", Json.str ("a@b.c"))]),
  ("summary", Json.str ("Engineer.")),
  ("skills", Json.arr [Json.str ("Python")]),
  ("experience", Json.arr []),
  ("education", Json.arr [])]

/-- The same record with exactly one project. -/
def recOneProj : Json := Json.obj [
  ("contact_info", Json.obj [("name", Json.str ("Ann Lee")), ("email", Json.str ("a@b.c"))]),
  ("summary", Json.str ("Engineer.")),
  ("skills", Json.arr [Json.str ("Python")]),
  ("experience", Json.arr []),
  ("education", Json.arr []),
  ("projects", Json.arr [Json.obj [
    ("title", Json.str ("Proj X")), ("description", Json.str ("Did a thing"))]])]

/-- A filesystem oracle on which no path exists. -/
def emptyFS : JobFS := JobFS.mk (fun _ => false) (fun _ => Except.error ()) (fun _ => Except.error ())

/-- Whether an adjacent space-dash pair occurs (the infix of every
`X - Y` line the docx renderer emits; no reserved heading contains one). -/
def hasAdjSpaceDash : List Char → Bool
  | c1 :: c2 :: rest => (c1 == ' ' && c2 == '-') || hasAdjSpaceDash (c2 :: rest)
  | _ => false

/-- The guard `key in record and record[key]` of the optional docx sections. -/
def optionalSectionOn (rj : Json) (key : String) : Bool :=
  match pyIndex rj key with
  | some v => pyTruthy v
  | none => false

/-- No title of any rendered project equals the string `bad` (the only
user-controlled text the docx renderer sets in bold without decoration, so
the only way a spurious heading-shaped paragraph could arise). -/
def projTitlesAvoid (rj : Json) (bad : String) : Prop :=
  ∀ pv ps p, pyIndex rj ("projects") = some pv → pyIter pv = some ps → p ∈ ps →
    pyIndex p ("title") ≠ some (Json.str bad)

/-! ## Theorems -/

/-! ### Helper lemmas -/

theorem idxOfChar_eq_none_of_not_mem (c : Char) (l : List Char) (h : c ∉ l) :
    idxOfChar c l = none := by
  induction l with
  | nil => rfl
  | cons x r ih =>
      simp only [idxOfChar]
      rw [if_neg, ih (fun hm => h (List.mem_cons_of_mem x hm))]
      · rfl
      · intro hb
        exact h (by simp [BEq.beq] at hb; simp [hb])

theorem braceSlice_none_of_no_open (s : String) (h : Char.ofNat 123 ∉ s.data) :
    braceSlice s = none := by
  unfold braceSlice strFindIdx
  rw [idxOfChar_eq_none_of_not_mem _ _ h]

/-! ### C10: read_job_description is the identity on non-path inputs -/

/-- Claim C10: for every input string that is not an existing path ending in
.txt, .docx or .pdf (the suffix test is on the lowercased string, as in the
source), `read_job_description` returns exactly the input string. -/
theorem read_job_description_identity (fs : JobFS) (s : String)
    (h : (fs.pathExists s &&
      (strEndsWith (pyLowerStr s) (".txt") || strEndsWith (pyLowerStr s) (".docx") ||
       strEndsWith (pyLowerStr s) (".pdf"))) = false) :
    read_job_description fs s = JobDescResult.ok s := by
  simp only [read_job_description]
  rw [if_neg]
  simp [h]

/-- Witness for C10 at a literal job-description text and an empty filesystem. -/
theorem read_job_description_identity_witness :
    read_job_description emptyFS ("Looking for Python, SQL") =
      JobDescResult.ok ("Looking for Python, SQL") :=
  read_job_description_identity emptyFS ("Looking for Python, SQL") (by rfl)

/-! ### C5: the transient-failure retry path raises NameError -/

/-- Claim C5 (code bug): a transient 503-class failure on the first attempt
must sleep and retry; instead the retry branch evaluates the undefined name
`jitter` (pdf_parser.py line 36; its assignment on line 35 is commented out)
and raises NameError, so the second attempt — which would have succeeded —
never happens.  Non-transient failures are re-raised unchanged, as specified. -/
theorem retry_transient_raises_nameerror :
    make_gemini_request_with_retry
      (fun n => if n == 0 then GeminiCall.failure ("503 Service Unavailable")
                else GeminiCall.success ("\x7b\x7d"))
      = RetryResult.raised PyExc.nameErrorJitter
    ∧ make_gemini_request_with_retry (fun _ => GeminiCall.failure ("400 invalid request"))
      = RetryResult.raised (PyExc.orig ("400 invalid request")) := by
  exact ⟨rfl, rfl⟩

/-! ### C2: escape_latex clobbers the escapes it introduced earlier -/

/-- Claim C2 (code bug): the replacement table is applied sequentially with
`str.replace`, so the backslash introduced by an earlier escape (for example
`&` to backslash-ampersand) is rewritten by the later backslash rule into
`\textbackslash{}`, leaving the original `&` unescaped in the output; the
escape sequence the claim promises never appears. -/
theorem escape_latex_clobbers_earlier_escapes :
    escape_latex ("&") = "\\textbackslash\x7b\x7d&"
    ∧ pyInStr ("\\&") (escape_latex ("&")) = false
    ∧ escape_latex ("AT&T 100%") = "AT\\textbackslash\x7b\x7d&T 100\\textbackslash\x7b\x7d%" := by
  exact ⟨rfl, rfl, rfl⟩

/-! ### C3: single-quote normalization repairs in one path, not the other -/

/-- Claim C3 (code bug): on the single-quoted record of scenario B the
pdf_parser normalization produces the double-quoted record, but the
resume_generator normalization leaves values single-quoted — its value
pattern ends in a JavaScript `/g` flag that must match literally — so the
parse still fails and, with the service unreachable, the rewriter returns the
fallback record instead of the repaired one. -/
theorem single_quoted_repair_divergence :
    extract_json_from_pdf (Except.ok rawAnnStr) (Except.error ()) = annRecord
    ∧ cleanedJsonPdf rawAnnStr = "\x7b\"name\":\"Ann\"\x7d"
    ∧ cleanedJsonGen rawAnnStr = ("\x7b\"name\": " ++ sQuote ++ "Ann" ++ sQuote ++ "\x7d")
    ∧ pyJsonParse (cleanedJsonGen rawAnnStr) = none
    ∧ generate_optimized_resume origRecord0 (Except.ok rawAnnStr) errSvc = mkFallback origRecord0
    ∧ jsonBeq ((generate_optimized_resume origRecord0 (Except.ok rawAnnStr) errSvc).getD Json.null)
        annRecord = false := by
  exact ⟨rfl, rfl, rfl, rfl, rfl, rfl⟩

/-! ### C6: the typesetting fallback chain -/

/-- Counterexample to claim C6: a generative result with no document-class
declaration is written out as the final document (with only a logged
warning), not rejected in favour of the template-driven strategy. -/
theorem create_resume_latex_uses_unvalidated_output :
    create_resume_latex true ("TEMPLATE") (Except.ok ("hello world")) recNoProj
      = LatexResult.written LatexStrategy.generative ("hello world")
    ∧ pyInStr ("\\documentclass") ("hello world") = false := by
  exact ⟨rfl, rfl⟩

/-- Amended C6: when the template asset is missing, or the generative call
raises, or its stripped result is empty, the renderer falls back directly to
the self-contained default builder; any non-empty generative result is
written unvalidated. -/
theorem create_resume_latex_fallback_chain (tc : String) (svc : Except Unit String) (rj : Json) :
    create_resume_latex false tc svc rj = defaultLatexResult rj
    ∧ create_resume_latex true tc (Except.error ()) rj = defaultLatexResult rj
    ∧ (∀ t c, analyze_and_map_template tc rj (Except.ok t) = some c → c ≠ "" →
        create_resume_latex true tc (Except.ok t) rj =
          LatexResult.written LatexStrategy.generative c) := by
  refine ⟨rfl, rfl, ?_⟩
  intro t c h hne
  have hie : (c == "") = false := beq_eq_false_iff_ne.mpr hne
  simp [create_resume_latex, h, hie]

/-- Witness for the amended C6 at a concrete valid generative result. -/
theorem create_resume_latex_fallback_chain_witness :
    create_resume_latex true ("T") (Except.ok ("\\documentclass ok")) recNoProj =
      LatexResult.written LatexStrategy.generative ("\\documentclass ok") :=
  (create_resume_latex_fallback_chain ("T") (Except.error ()) recNoProj).2.2
    ("\\documentclass ok") ("\\documentclass ok") (by rfl) (by decide)

/-! ### C7: missing skills are the job/resume keyword set difference -/

/-- Claim C7: for every POS-tagger and stop-list oracle and all texts, the
missing-skill set is exactly the top-30 job keyword set minus the top-50
resume keyword set — hence a subset of the former and disjoint from the
latter. -/
theorem identify_missing_skills_spec (tag : String → List SpacyTok)
    (stop : String → Bool) (J R : String) :
    (identify_missing_skills tag stop J R).toFinset =
      (extract_keywords tag stop J 30).toFinset \ (extract_keywords tag stop R 50).toFinset
    ∧ (identify_missing_skills tag stop J R).toFinset ⊆
        (extract_keywords tag stop J 30).toFinset
    ∧ Disjoint ((identify_missing_skills tag stop J R).toFinset)
        ((extract_keywords tag stop R 50).toFinset) := by
  have h : (identify_missing_skills tag stop J R).toFinset =
      (extract_keywords tag stop J 30).toFinset \ (extract_keywords tag stop R 50).toFinset := by
    ext x
    simp [identify_missing_skills, List.mem_filter, List.mem_dedup, Finset.mem_sdiff]
  refine ⟨h, ?_, ?_⟩
  · rw [h]; exact Finset.sdiff_subset
  · rw [h]; exact Finset.sdiff_disjoint

/-! ### C9: rendering leaves the record unchanged -/

/-- Claim C9: both the word-processor renderer and the default typesetting
builder, run as record-state computations, return their input record
unchanged (all fields and nested collections included, since the state is the
whole record value). -/
theorem rendering_leaves_record_unchanged :
    (∀ r out r2, create_resume_docx_st r = some (out, r2) → r2 = r)
    ∧ (∀ r out r2, create_default_latex_resume_st r = some (out, r2) → r2 = r) := by
  constructor
  · intro r out r2 h
    simp only [create_resume_docx_st, rmBind, rmRead, rmLift] at h
    cases hx : create_resume_docx r with
    | none => rw [hx] at h; cases h
    | some ps =>
        rw [hx] at h
        have h2 := (Option.some.injEq _ _).mp h
        exact (congrArg Prod.snd h2).symm
  · intro r out r2 h
    simp only [create_default_latex_resume_st, rmBind, rmRead, rmLift] at h
    cases hx : create_default_latex_resume r with
    | none => rw [hx] at h; cases h
    | some ps =>
        rw [hx] at h
        have h2 := (Option.some.injEq _ _).mp h
        exact (congrArg Prod.snd h2).symm

/-- Witness for C9: a successful concrete render of both targets returns the
sample record as the final state. -/
theorem rendering_leaves_record_unchanged_witness :
    ((create_resume_docx_st recNoProj).getD ([], Json.null)).2 = recNoProj
    ∧ ((create_default_latex_resume_st recNoProj).getD ("", Json.null)).2 = recNoProj :=
  ⟨rendering_leaves_record_unchanged.1 recNoProj
      ((create_resume_docx_st recNoProj).getD ([], Json.null)).1
      ((create_resume_docx_st recNoProj).getD ([], Json.null)).2 (by rfl),
   rendering_leaves_record_unchanged.2 recNoProj
      ((create_default_latex_resume_st recNoProj).getD ("", Json.null)).1
      ((create_default_latex_resume_st recNoProj).getD ("", Json.null)).2 (by rfl)⟩

/-! ### C1: the repair contract of the content rewriter -/

/-- Counterexample to claim C1: with a well-formed original record (a
mapping) and a service response of `3` — a raw string containing no brace at
all, but valid JSON of non-mapping type — the rewriter returns Python `None`:
the direct parse rebinds the local `resume_json` to `3`, the shape check
raises `ValueError`, and the fallback construction then dies on `3.get`,
landing in the bare `except` that returns `None`.  The same failure occurs
for every non-mapping value Python's reader accepts, including the float
`3.5` and the non-standard constant `NaN` (both parse, so neither reaches
the fallback-returning repair path). -/
theorem generate_optimized_resume_returns_none :
    generate_optimized_resume origRecord0 (Except.ok ("3")) errSvc = none
    ∧ (mkFallback origRecord0).isSome = true
    ∧ Char.ofNat 123 ∉ ("3").data ∧ Char.ofNat 125 ∉ ("3").data
    ∧ pyJsonParse ("3.5") = some (Json.fnum (JFloat.finite 35 (-1)))
    ∧ generate_optimized_resume origRecord0 (Except.ok ("3.5")) errSvc = none
    ∧ pyJsonParse ("NaN") = some (Json.fnum JFloat.nan)
    ∧ generate_optimized_resume origRecord0 (Except.ok ("NaN")) errSvc = none := by
  exact ⟨rfl, rfl, by decide, by decide, rfl, rfl, rfl, rfl⟩

/-- Amended C1: provided the original record is a mapping whose fallback is
constructible, and the raw response does not parse directly as a non-mapping
JSON value, the rewriter always returns a record; in particular it returns
exactly the fallback derived from the original record when the generative
call raises, and when the raw response has no brace at all and is not itself
valid JSON.  Since `pyJsonParse` covers Python's full reader — floats such
as `3.5` and the constants `NaN`/`Infinity` included — the proviso genuinely
excludes every scalar the program parses and then dies on (see the
counterexample), and the brace-free conclusion applies only to strings the
program really fails to parse. -/
theorem generate_optimized_resume_total (rj fb : Json) (first : Except Unit String)
    (fixes : Nat → Except Unit String)
    (hfb : mkFallback rj = some fb)
    (hdir : ∀ t, first = Except.ok t → ∀ v, pyJsonParse t = some v → v.isObj = true) :
    (generate_optimized_resume rj first fixes).isSome = true
    ∧ (first = Except.error () → generate_optimized_resume rj first fixes = some fb)
    ∧ (∀ t, first = Except.ok t →
        Char.ofNat 123 ∉ t.data → pyJsonParse t = none →
        generate_optimized_resume rj first fixes = some fb) := by
  cases first with
  | error e =>
      cases e
      refine ⟨by simp [generate_optimized_resume, hfb], fun _ => by simp [generate_optimized_resume, hfb], ?_⟩
      intro t ht
      exact absurd ht (by simp)
  | ok t =>
      refine ⟨?_, ?_, ?_⟩
      · unfold generate_optimized_resume
        cases hp : pyJsonParse t with
        | some v =>
            have hobj := hdir t rfl v hp
            simp [hp, hobj]
        | none =>
            cases hb : braceSlice t with
            | none => simp [hp, hb, hfb]
            | some js =>
                cases hc : pyJsonParse (cleanedJsonGen js) with
                | some v2 => simp [hp, hb, hc]
                | none =>
                    rcases hfix : fixLoop fixes js with ⟨ov, js2⟩
                    cases ov with
                    | some v3 => simp [hp, hb, hc, hfix]
                    | none =>
                        cases hs : salvage js2 with
                        | some j => simp [hp, hb, hc, hfix, hs]
                        | none => simp [hp, hb, hc, hfix, hs, hfb]
      · intro h
        exact absurd h (by simp)
      · intro t2 ht hnb hpn
        have ht2 : t2 = t := by
          injection ht with h
          exact h.symm
        subst ht2
        unfold generate_optimized_resume
        simp [hpn, braceSlice_none_of_no_open t2 hnb, hfb]

/-- Witness for the amended C1: the failing-service case returns exactly the
fallback built from the sample original record. -/
theorem generate_optimized_resume_total_witness :
    generate_optimized_resume origRecord0 (Except.error ()) errSvc = some fallback0 :=
  (generate_optimized_resume_total origRecord0 fallback0 (Except.error ()) errSvc
    (by rfl) (fun t ht => absurd ht (by simp))).2.1 rfl

/-! ### C4: degenerate inputs of calculate_similarity -/

theorem dotNat_zero_left (a : List Nat) (h : ∀ x ∈ a, x = 0) :
    ∀ b : List Nat, dotNat a b = 0 := by
  induction a with
  | nil => intro b; rfl
  | cons x xs ih =>
      intro b
      cases b with
      | nil => rfl
      | cons y bs =>
          have hx : x = 0 := h x (by simp)
          have hr := ih (fun z hz => h z (by simp [hz])) bs
          show x * y + dotNat xs bs = 0
          rw [hx, hr]
          simp

theorem dotNat_zero_right (b : List Nat) (h : ∀ x ∈ b, x = 0) :
    ∀ a : List Nat, dotNat a b = 0 := by
  induction b with
  | nil => intro a; cases a <;> rfl
  | cons y bs ih =>
      intro a
      cases a with
      | nil => rfl
      | cons x xs =>
          have hy : y = 0 := h y (by simp)
          have hr := ih (fun z hz => h z (by simp [hz])) xs
          show x * y + dotNat xs bs = 0
          rw [hy, hr, Nat.mul_zero]

theorem vecCount_empty_zero (vocab : List String) : ∀ x ∈ vecCount vocab [], x = 0 := by
  intro x hx
  simp [vecCount] at hx
  exact hx.2.symm ▸ rfl

theorem dot_sq_le (a : List Nat) : ∀ b : List Nat,
    ((dotNat a b : ℝ)) ^ 2 ≤ (normSqNat a : ℝ) * (normSqNat b : ℝ) := by
  induction a with
  | nil =>
      intro b
      simp [dotNat, normSqNat]
  | cons x xs ih =>
      intro b
      cases b with
      | nil =>
          simp [dotNat, normSqNat]
      | cons y bs =>
          have IH := ih bs
          have h1 : dotNat (x :: xs) (y :: bs) = x * y + dotNat xs bs := rfl
          have h2 : normSqNat (x :: xs) = x * x + normSqNat xs := rfl
          have h3 : normSqNat (y :: bs) = y * y + normSqNat bs := rfl
          rw [h1, h2, h3]
          push_cast
          have hX : (0:ℝ) ≤ (x:ℝ) := by positivity
          have hY : (0:ℝ) ≤ (y:ℝ) := by positivity
          have hD : (0:ℝ) ≤ ((dotNat xs bs : ℕ):ℝ) := by positivity
          have hNA : (0:ℝ) ≤ ((normSqNat xs : ℕ):ℝ) := by positivity
          have hNB : (0:ℝ) ≤ ((normSqNat bs : ℕ):ℝ) := by positivity
          have e2 : 4*((x:ℝ)*(y:ℝ))^2*((dotNat xs bs : ℕ):ℝ)^2 ≤
              4*((x:ℝ)*(y:ℝ))^2*(((normSqNat xs : ℕ):ℝ)*((normSqNat bs : ℕ):ℝ)) := by
            have h4 : (0:ℝ) ≤ 4*((x:ℝ)*(y:ℝ))^2 := by positivity
            exact mul_le_mul_of_nonneg_left IH h4
          have e3 : 4*((x:ℝ)*(y:ℝ))^2*(((normSqNat xs : ℕ):ℝ)*((normSqNat bs : ℕ):ℝ)) ≤
              ((x:ℝ)*(x:ℝ)*((normSqNat bs : ℕ):ℝ) + (y:ℝ)*(y:ℝ)*((normSqNat xs : ℕ):ℝ))^2 := by
            nlinarith [sq_nonneg ((x:ℝ)*(x:ℝ)*((normSqNat bs : ℕ):ℝ) - (y:ℝ)*(y:ℝ)*((normSqNat xs : ℕ):ℝ))]
          have hsq : (2*(x:ℝ)*(y:ℝ)*((dotNat xs bs : ℕ):ℝ))^2 ≤
              ((x:ℝ)*(x:ℝ)*((normSqNat bs : ℕ):ℝ) + (y:ℝ)*(y:ℝ)*((normSqNat xs : ℕ):ℝ))^2 := by
            nlinarith [e2, e3]
          have h5 : (0:ℝ) ≤ (x:ℝ)*(x:ℝ)*((normSqNat bs : ℕ):ℝ) + (y:ℝ)*(y:ℝ)*((normSqNat xs : ℕ):ℝ) := by
            positivity
          have h6 : (0:ℝ) ≤ 2*(x:ℝ)*(y:ℝ)*((dotNat xs bs : ℕ):ℝ) := by positivity
          have h7 : 2*(x:ℝ)*(y:ℝ)*((dotNat xs bs : ℕ):ℝ) ≤
              (x:ℝ)*(x:ℝ)*((normSqNat bs : ℕ):ℝ) + (y:ℝ)*(y:ℝ)*((normSqNat xs : ℕ):ℝ) := by
            calc 2*(x:ℝ)*(y:ℝ)*((dotNat xs bs : ℕ):ℝ)
                = Real.sqrt ((2*(x:ℝ)*(y:ℝ)*((dotNat xs bs : ℕ):ℝ))^2) := (Real.sqrt_sq h6).symm
              _ ≤ Real.sqrt (((x:ℝ)*(x:ℝ)*((normSqNat bs : ℕ):ℝ) + (y:ℝ)*(y:ℝ)*((normSqNat xs : ℕ):ℝ))^2) :=
                  Real.sqrt_le_sqrt hsq
              _ = (x:ℝ)*(x:ℝ)*((normSqNat bs : ℕ):ℝ) + (y:ℝ)*(y:ℝ)*((normSqNat xs : ℕ):ℝ) :=
                  Real.sqrt_sq h5
          nlinarith [IH, h7]

theorem dotNat_le_sqrt_norms (a b : List Nat) :
    (dotNat a b : ℝ) ≤ Real.sqrt (normSqNat a) * Real.sqrt (normSqNat b) := by
  have h := dot_sq_le a b
  have hd : (0:ℝ) ≤ (dotNat a b : ℝ) := by positivity
  have h2 : (dotNat a b : ℝ) = Real.sqrt (((dotNat a b : ℝ)) ^ 2) := (Real.sqrt_sq hd).symm
  rw [h2, ← Real.sqrt_mul (by positivity)]
  exact Real.sqrt_le_sqrt h

theorem entries_zero_of_normSq_zero (a : List Nat) (h : normSqNat a = 0) :
    ∀ x ∈ a, x = 0 := by
  intro x hx
  have hmem : x * x ∈ a.map (fun z => z * z) := List.mem_map_of_mem _ hx
  have hz : x * x = 0 := by
    have := (List.sum_eq_zero_iff).mp h _ hmem
    exact this
  exact mul_self_eq_zero.mp hz

theorem cosineSim_bounds (a b : List Nat) : 0 ≤ cosineSim a b ∧ cosineSim a b ≤ 1 := by
  unfold cosineSim
  have hd1 : (0:ℝ) < (if normSqNat a = 0 then 1 else Real.sqrt (normSqNat a)) := by
    split
    · norm_num
    · next h => exact Real.sqrt_pos.mpr (by exact_mod_cast Nat.pos_of_ne_zero h)
  have hd2 : (0:ℝ) < (if normSqNat b = 0 then 1 else Real.sqrt (normSqNat b)) := by
    split
    · norm_num
    · next h => exact Real.sqrt_pos.mpr (by exact_mod_cast Nat.pos_of_ne_zero h)
  constructor
  · exact div_nonneg (by positivity) (le_of_lt (mul_pos hd1 hd2))
  · rw [div_le_one (mul_pos hd1 hd2)]
    by_cases ha : normSqNat a = 0
    · rw [dotNat_zero_left a (entries_zero_of_normSq_zero a ha) b]
      exact_mod_cast le_of_lt (mul_pos hd1 hd2)
    · by_cases hb : normSqNat b = 0
      · rw [dotNat_zero_right b (entries_zero_of_normSq_zero b hb) a]
        exact_mod_cast le_of_lt (mul_pos hd1 hd2)
      · simp only [if_neg ha, if_neg hb]
        exact dotNat_le_sqrt_norms a b

theorem cosineSim_zero_left (vocab : List String) (b : List Nat) :
    cosineSim (vecCount vocab []) b = 0 := by
  unfold cosineSim
  rw [dotNat_zero_left _ (vecCount_empty_zero vocab) b]
  simp

theorem cosineSim_zero_right (a : List Nat) (vocab : List String) :
    cosineSim a (vecCount vocab []) = 0 := by
  unfold cosineSim
  rw [dotNat_zero_right _ (vecCount_empty_zero vocab) a]
  simp

theorem mem_insertAscStr (x a : String) (l : List String) :
    a ∈ insertAscStr x l ↔ a = x ∨ a ∈ l := by
  induction l with
  | nil => simp [insertAscStr]
  | cons y r ih =>
      simp only [insertAscStr]
      split
      · simp
      · simp [ih]
        tauto

theorem mem_sortStrings (a : String) (l : List String) :
    a ∈ sortStrings l ↔ a ∈ l := by
  induction l with
  | nil => simp [sortStrings]
  | cons x r ih =>
      show a ∈ insertAscStr x (sortStrings r) ↔ _
      rw [mem_insertAscStr]
      simp [ih]

theorem sortStrings_dedup_ne_nil (d : List String) (x : String) (hx : x ∈ d) :
    sortStrings d.dedup ≠ [] := by
  intro hnil
  have hm : x ∈ sortStrings d.dedup := (mem_sortStrings x _).mpr (List.mem_dedup.mpr hx)
  rw [hnil] at hm
  cases hm

/-- Counterexample to claim C4: on two inputs that both reduce to zero terms
(the empty strings), the vectorizer raises `ValueError: empty vocabulary`
instead of the promised 0.0. -/
theorem calculate_similarity_crashes_on_empty :
    calculate_similarity stopNone ("") ("") = Except.error ("empty vocabulary") := rfl

/-- Amended C4: when exactly one of the two texts reduces to zero vectorizer
terms the score is 0.0; when both reduce to zero terms the call raises
(empty vocabulary); and every score the function does return lies in [0, 1]. -/
theorem calculate_similarity_degenerate_spec (stop : String → Bool) (t1 t2 : String) :
    (cvTokenize (preprocess_text stop t1) = [] → cvTokenize (preprocess_text stop t2) = [] →
      calculate_similarity stop t1 t2 = Except.error ("empty vocabulary"))
    ∧ (cvTokenize (preprocess_text stop t1) = [] → cvTokenize (preprocess_text stop t2) ≠ [] →
      calculate_similarity stop t1 t2 = Except.ok 0)
    ∧ (cvTokenize (preprocess_text stop t1) ≠ [] → cvTokenize (preprocess_text stop t2) = [] →
      calculate_similarity stop t1 t2 = Except.ok 0)
    ∧ (∀ r, calculate_similarity stop t1 t2 = Except.ok r → 0 ≤ r ∧ r ≤ 1) := by
  refine ⟨?_, ?_, ?_, ?_⟩
  · intro h1 h2
    simp [calculate_similarity, countVectors, h1, h2, sortStrings]
  · intro h1 h2
    obtain ⟨x, xs, hx⟩ := List.exists_cons_of_ne_nil h2
    have hnn : sortStrings ((cvTokenize (preprocess_text stop t1) ++
        cvTokenize (preprocess_text stop t2)).dedup) ≠ [] := by
      apply sortStrings_dedup_ne_nil _ x
      rw [hx]
      simp
    have hie : (sortStrings ((cvTokenize (preprocess_text stop t1) ++
        cvTokenize (preprocess_text stop t2)).dedup)).isEmpty = false := by
      cases hv : sortStrings ((cvTokenize (preprocess_text stop t1) ++
        cvTokenize (preprocess_text stop t2)).dedup) with
      | nil => exact absurd hv hnn
      | cons a l => rfl
    simp only [calculate_similarity, countVectors, hie, Bool.false_eq_true, if_false]
    rw [h1]
    rw [cosineSim_zero_left]
  · intro h1 h2
    obtain ⟨x, xs, hx⟩ := List.exists_cons_of_ne_nil h1
    have hnn : sortStrings ((cvTokenize (preprocess_text stop t1) ++
        cvTokenize (preprocess_text stop t2)).dedup) ≠ [] := by
      apply sortStrings_dedup_ne_nil _ x
      rw [hx]
      simp
    have hie : (sortStrings ((cvTokenize (preprocess_text stop t1) ++
        cvTokenize (preprocess_text stop t2)).dedup)).isEmpty = false := by
      cases hv : sortStrings ((cvTokenize (preprocess_text stop t1) ++
        cvTokenize (preprocess_text stop t2)).dedup) with
      | nil => exact absurd hv hnn
      | cons a l => rfl
    simp only [calculate_similarity, countVectors, hie, Bool.false_eq_true, if_false]
    rw [h2]
    rw [cosineSim_zero_right]
  · intro r h
    revert h
    unfold calculate_similarity
    cases hcv : countVectors stop t1 t2 with
    | error e => intro h; cases h
    | ok p =>
        rcases p with ⟨va, vb⟩
        intro h
        have h2 : cosineSim va vb = r := by injection h
        rw [← h2]
        exact cosineSim_bounds va vb

/-- Witness for the amended C4: empty against non-empty text scores 0.0. -/
theorem calculate_similarity_degenerate_spec_witness :
    calculate_similarity stopNone ("") ("hello world") = Except.ok 0 :=
  (calculate_similarity_degenerate_spec stopNone ("") ("hello world")).2.1 (by rfl) (by decide)

/-! ### C8: optional docx sections -/

theorem hasAdjSpaceDash_append (l r : List Char) :
    hasAdjSpaceDash (l ++ (' ' :: '-' :: r)) = true := by
  induction l with
  | nil => simp [hasAdjSpaceDash]
  | cons x xs ih =>
      cases xs with
      | nil => simp [hasAdjSpaceDash]
      | cons y ys => simp [hasAdjSpaceDash] at ih ⊢; tauto

theorem dash_concat_ne (s1 s2 H : String) (hH : hasAdjSpaceDash H.data = false) :
    s1 ++ " - " ++ s2 ≠ H := by
  intro he
  have hd : (s1 ++ " - " ++ s2).data = H.data := congrArg String.data he
  have hdata : (s1 ++ " - " ++ s2).data = s1.data ++ (' ' :: '-' :: (' ' :: s2.data)) := by
    simp [String.data_append]
  have htrue : hasAdjSpaceDash H.data = true := by
    rw [← hd, hdata]
    exact hasAdjSpaceDash_append _ _
  rw [hH] at htrue
  cases htrue

theorem mapMOpt_flatten_not_mem (f : Json → Option (List Para)) (H : Para)
    (l : List Json) (hf : ∀ x ∈ l, ∀ blk, f x = some blk → H ∉ blk) :
    ∀ blocks, mapMOpt f l = some blocks → H ∉ blocks.flatten := by
  induction l with
  | nil =>
      intro blocks h
      have hb : blocks = [] := by
        injection h with h2
        exact h2.symm
      subst hb
      simp
  | cons x xs ih =>
      intro blocks h
      simp only [mapMOpt] at h
      cases h1 : f x with
      | none => rw [h1] at h; cases h
      | some blk =>
          rw [h1] at h
          cases h2 : mapMOpt f xs with
          | none => rw [h2] at h; cases h
          | some rest =>
              rw [h2] at h
              have hb : blocks = blk :: rest := by
                injection h with h3
                exact h3.symm
              subst hb
              simp only [List.flatten_cons, List.mem_append]
              intro hc
              cases hc with
              | inl hin => exact hf x (by simp) blk h1 hin
              | inr hin =>
                  exact ih (fun z hz blk2 hfz => hf z (by simp [hz]) blk2 hfz) rest h2 hin

theorem header_no_heading (rj : Json) (ps : List Para) (H : String)
    (h : headerParas rj = some ps) : boldPara H ∉ ps := by
  simp only [headerParas, Option.bind_eq_some, bind] at h
  obtain ⟨ci, h1, nm, h2, nmS, h3, em, h4, ph, h5, lc, h6, hasLi, h7, items, h8, strs, h9, h⟩ := h
  have hp : ps = [⟨nmS, true, false, false, some 16, true⟩,
      ⟨String.intercalate (" | ") strs, false, false, false, none, true⟩] := by
    injection h with h10
    exact h10.symm
  subst hp
  simp [boldPara, Para.mk.injEq]

theorem summary_no_heading (rj : Json) (ps : List Para) (H : String)
    (hne : H ≠ "SUMMARY") (h : summaryParas rj = some ps) : boldPara H ∉ ps := by
  simp only [summaryParas, Option.bind_eq_some, bind] at h
  obtain ⟨sm, h1, smS, h2, h⟩ := h
  have hp : ps = [blankPara, boldPara ("SUMMARY"), plainPara smS] := by
    injection h with h3
    exact h3.symm
  subst hp
  simp [blankPara, boldPara, plainPara, Para.mk.injEq, hne]

theorem skills_no_heading (rj : Json) (ps : List Para) (H : String)
    (hne : H ≠ "SKILLS") (h : skillsParas rj = some ps) : boldPara H ∉ ps := by
  simp only [skillsParas, Option.bind_eq_some, bind] at h
  obtain ⟨sk, h1, alls, h2, strs, h3, h⟩ := h
  have hp : ps = [blankPara, boldPara ("SKILLS"), plainPara (String.intercalate (", ") strs)] := by
    injection h with h4
    exact h4.symm
  subst hp
  simp [blankPara, boldPara, plainPara, Para.mk.injEq, hne]

theorem jobParas_no_heading (j : Json) (blk : List Para) (H : String)
    (hadj : hasAdjSpaceDash H.data = false) (h : jobParas j = some blk) :
    boldPara H ∉ blk := by
  simp only [jobParas, Option.bind_eq_some, bind] at h
  obtain ⟨t, h1, c, h2, d, h3, dS, h4, desc, h5, bullets, h6, bstrs, h7, h⟩ := h
  have hp : blk = boldPara (pyStr t ++ " - " ++ pyStr c) :: italicPara dS ::
      bstrs.map bulletPara := by
    injection h with h8
    exact h8.symm
  subst hp
  intro hmem
  simp only [List.mem_cons, List.mem_map] at hmem
  rcases hmem with heq | heq | ⟨b, _, heq⟩
  · have : H = pyStr t ++ " - " ++ pyStr c := by
      have := congrArg Para.text heq
      exact this
    exact dash_concat_ne (pyStr t) (pyStr c) H hadj this.symm
  · exact absurd (congrArg Para.italic heq) (by simp [boldPara, italicPara])
  · exact absurd (congrArg Para.bullet heq.symm) (by simp [boldPara, bulletPara])

theorem experience_no_heading (rj : Json) (ps : List Para) (H : String)
    (hne : H ≠ "EXPERIENCE") (hadj : hasAdjSpaceDash H.data = false)
    (h : experienceParas rj = some ps) : boldPara H ∉ ps := by
  simp only [experienceParas, Option.bind_eq_some, bind] at h
  obtain ⟨e, h1, jobs, h2, blocks, h3, h⟩ := h
  have hp : ps = blankPara :: boldPara ("EXPERIENCE") :: blocks.flatten := by
    injection h with h4
    exact h4.symm
  subst hp
  intro hmem
  simp only [List.mem_cons] at hmem
  rcases hmem with heq | heq | hin
  · exact absurd (congrArg Para.bold heq) (by simp [boldPara, blankPara, plainPara])
  · exact hne (by
      have := congrArg Para.text heq
      exact this)
  · exact mapMOpt_flatten_not_mem jobParas (boldPara H) jobs
      (fun x _ blk hb => jobParas_no_heading x blk H hadj hb) blocks h3 hin

theorem eduParas_no_heading (j : Json) (blk : List Para) (H : String)
    (hadj : hasAdjSpaceDash H.data = false) (h : eduParas j = some blk) :
    boldPara H ∉ blk := by
  simp only [eduParas, Option.bind_eq_some, bind] at h
  obtain ⟨dg, h1, inst, h2, dt, h3, dtS, h4, hasDet, h5, h⟩ := h
  have hne1 : boldPara H ≠ boldPara (pyStr dg ++ " - " ++ pyStr inst) := by
    intro heq
    exact dash_concat_ne (pyStr dg) (pyStr inst) H hadj (congrArg Para.text heq).symm
  have hne2 : boldPara H ≠ italicPara dtS := by
    intro heq
    exact absurd (congrArg Para.italic heq) (by simp [boldPara, italicPara])
  split at h
  · simp only [Option.bind_eq_some, bind] at h
    obtain ⟨dv, h6, h⟩ := h
    split at h
    · simp only [Option.bind_eq_some, bind] at h
      obtain ⟨dvS, h7, h⟩ := h
      have hp : blk = [boldPara (pyStr dg ++ " - " ++ pyStr inst), italicPara dtS,
          plainPara dvS] := by
        injection h with h8
        exact h8.symm
      subst hp
      intro hmem
      simp only [List.mem_cons, List.not_mem_nil] at hmem
      rcases hmem with heq | heq | heq | hf
      · exact hne1 heq
      · exact hne2 heq
      · exact absurd (congrArg Para.bold heq) (by simp [boldPara, plainPara])
      · exact hf
    · have hp : blk = [boldPara (pyStr dg ++ " - " ++ pyStr inst), italicPara dtS] := by
        injection h with h8
        exact h8.symm
      subst hp
      intro hmem
      simp only [List.mem_cons, List.not_mem_nil] at hmem
      rcases hmem with heq | heq | hf
      · exact hne1 heq
      · exact hne2 heq
      · exact hf
  · have hp : blk = [boldPara (pyStr dg ++ " - " ++ pyStr inst), italicPara dtS] := by
      injection h with h8
      exact h8.symm
    subst hp
    intro hmem
    simp only [List.mem_cons, List.not_mem_nil] at hmem
    rcases hmem with heq | heq | hf
    · exact hne1 heq
    · exact hne2 heq
    · exact hf

theorem education_no_heading (rj : Json) (ps : List Para) (H : String)
    (hne : H ≠ "EDUCATION") (hadj : hasAdjSpaceDash H.data = false)
    (h : educationParas rj = some ps) : boldPara H ∉ ps := by
  simp only [educationParas, Option.bind_eq_some, bind] at h
  obtain ⟨e, h1, edus, h2, blocks, h3, h⟩ := h
  have hp : ps = blankPara :: boldPara ("EDUCATION") :: blocks.flatten := by
    injection h with h4
    exact h4.symm
  subst hp
  intro hmem
  simp only [List.mem_cons] at hmem
  rcases hmem with heq | heq | hin
  · exact absurd (congrArg Para.bold heq) (by simp [boldPara, blankPara, plainPara])
  · exact hne (congrArg Para.text heq)
  · exact mapMOpt_flatten_not_mem eduParas (boldPara H) edus
      (fun x _ blk hb => eduParas_no_heading x blk H hadj hb) blocks h3 hin

theorem pyStrStrict_eq (t : Json) (tS : String) (h : pyStrStrict t = some tS) :
    t = Json.str tS := by
  cases t <;> simp [pyStrStrict] at h
  rw [h]

theorem projBlock_no_heading (p : Json) (blk : List Para) (H : String)
    (ht : pyIndex p ("title") ≠ some (Json.str H)) (h : projBlock p = some blk) :
    boldPara H ∉ blk := by
  simp only [projBlock, Option.bind_eq_some, bind] at h
  obtain ⟨t, h1, tS, h2, d, h3, dS, h4, h⟩ := h
  have hp : blk = [boldPara tS, plainPara dS] := by
    injection h with h5
    exact h5.symm
  subst hp
  intro hmem
  simp only [List.mem_cons, List.not_mem_nil] at hmem
  rcases hmem with heq | heq | hf
  · have htS : H = tS := congrArg Para.text heq
    have htj : t = Json.str tS := pyStrStrict_eq t tS h2
    rw [htj, ← htS] at h1
    exact ht h1
  · exact absurd (congrArg Para.bold heq) (by simp [boldPara, plainPara])
  · exact hf

theorem projects_no_heading (rj : Json) (ps : List Para) (H : String)
    (hne : H ≠ "PROJECTS") (htitle : projTitlesAvoid rj H)
    (h : projectsParas rj = some ps) : boldPara H ∉ ps := by
  simp only [projectsParas, Option.bind_eq_some, bind] at h
  obtain ⟨hasP, h1, h⟩ := h
  split at h
  · simp only [Option.bind_eq_some] at h
    obtain ⟨pv, h2, h⟩ := h
    split at h
    · simp only [Option.bind_eq_some] at h
      obtain ⟨psL, h3, blocks, h4, h⟩ := h
      have hp : ps = blankPara :: boldPara ("PROJECTS") :: blocks.flatten := by
        injection h with h5
        exact h5.symm
      subst hp
      intro hmem
      simp only [List.mem_cons] at hmem
      rcases hmem with heq | heq | hin
      · exact absurd (congrArg Para.bold heq) (by simp [boldPara, blankPara, plainPara])
      · exact hne (congrArg Para.text heq)
      · exact mapMOpt_flatten_not_mem projBlock (boldPara H) psL
          (fun x hx blk hb => projBlock_no_heading x blk H (htitle pv psL x h2 h3 hx) hb)
          blocks h4 hin
    · have hp : ps = [] := by
        injection h with h5
        exact h5.symm
      subst hp
      simp
  · have hp : ps = [] := by
      injection h with h5
      exact h5.symm
    subst hp
    simp

theorem certBlock_no_heading (c : Json) (blk : List Para) (H : String)
    (hadj : hasAdjSpaceDash H.data = false) (h : certBlock c = some blk) :
    boldPara H ∉ blk := by
  simp only [certBlock, Option.bind_eq_some, bind] at h
  obtain ⟨n, h1, i, h2, d, h3, dS, h4, h⟩ := h
  have hp : blk = [boldPara (pyStr n ++ " - " ++ pyStr i), italicPara dS] := by
    injection h with h5
    exact h5.symm
  subst hp
  intro hmem
  simp only [List.mem_cons, List.not_mem_nil] at hmem
  rcases hmem with heq | heq | hf
  · exact dash_concat_ne (pyStr n) (pyStr i) H hadj (congrArg Para.text heq).symm
  · exact absurd (congrArg Para.italic heq) (by simp [boldPara, italicPara])
  · exact hf

theorem certs_no_heading (rj : Json) (ps : List Para) (H : String)
    (hne : H ≠ "CERTIFICATIONS") (hadj : hasAdjSpaceDash H.data = false)
    (h : certsParas rj = some ps) : boldPara H ∉ ps := by
  simp only [certsParas, Option.bind_eq_some, bind] at h
  obtain ⟨hasC, h1, h⟩ := h
  split at h
  · simp only [Option.bind_eq_some] at h
    obtain ⟨cv, h2, h⟩ := h
    split at h
    · simp only [Option.bind_eq_some] at h
      obtain ⟨cs, h3, blocks, h4, h⟩ := h
      have hp : ps = blankPara :: boldPara ("CERTIFICATIONS") :: blocks.flatten := by
        injection h with h5
        exact h5.symm
      subst hp
      intro hmem
      simp only [List.mem_cons] at hmem
      rcases hmem with heq | heq | hin
      · exact absurd (congrArg Para.bold heq) (by simp [boldPara, blankPara, plainPara])
      · exact hne (congrArg Para.text heq)
      · exact mapMOpt_flatten_not_mem certBlock (boldPara H) cs
          (fun x _ blk hb => certBlock_no_heading x blk H hadj hb) blocks h4 hin
    · have hp : ps = [] := by
        injection h with h5
        exact h5.symm
      subst hp
      simp
  · have hp : ps = [] := by
      injection h with h5
      exact h5.symm
    subst hp
    simp

theorem activities_no_heading (rj : Json) (ps : List Para) (H : String)
    (hne : H ≠ "EXTRA-CURRICULAR ACTIVITIES")
    (h : activitiesParas rj = some ps) : boldPara H ∉ ps := by
  simp only [activitiesParas, Option.bind_eq_some, bind] at h
  obtain ⟨hasA, h1, h⟩ := h
  split at h
  · simp only [Option.bind_eq_some] at h
    obtain ⟨av, h2, h⟩ := h
    split at h
    · simp only [Option.bind_eq_some] at h
      obtain ⟨items, h3, strs, h4, h⟩ := h
      have hp : ps = blankPara :: boldPara ("EXTRA-CURRICULAR ACTIVITIES") ::
          strs.map bulletPara := by
        injection h with h5
        exact h5.symm
      subst hp
      intro hmem
      simp only [List.mem_cons, List.mem_map] at hmem
      rcases hmem with heq | heq | ⟨b, _, heq⟩
      · exact absurd (congrArg Para.bold heq) (by simp [boldPara, blankPara, plainPara])
      · exact hne (congrArg Para.text heq)
      · exact absurd (congrArg Para.bullet heq.symm) (by simp [boldPara, bulletPara])
    · have hp : ps = [] := by
        injection h with h5
        exact h5.symm
      subst hp
      simp
  · have hp : ps = [] := by
      injection h with h5
      exact h5.symm
    subst hp
    simp

theorem leadership_no_heading (rj : Json) (ps : List Para) (H : String)
    (hne : H ≠ "LEADERSHIP") (h : leadershipParas rj = some ps) : boldPara H ∉ ps := by
  simp only [leadershipParas, Option.bind_eq_some, bind] at h
  obtain ⟨hasL, h1, h⟩ := h
  split at h
  · simp only [Option.bind_eq_some] at h
    obtain ⟨lv, h2, h⟩ := h
    split at h
    · simp only [Option.bind_eq_some] at h
      obtain ⟨items, h3, strs, h4, h⟩ := h
      have hp : ps = blankPara :: boldPara ("LEADERSHIP") :: strs.map bulletPara := by
        injection h with h5
        exact h5.symm
      subst hp
      intro hmem
      simp only [List.mem_cons, List.mem_map] at hmem
      rcases hmem with heq | heq | ⟨b, _, heq⟩
      · exact absurd (congrArg Para.bold heq) (by simp [boldPara, blankPara, plainPara])
      · exact hne (congrArg Para.text heq)
      · exact absurd (congrArg Para.bullet heq.symm) (by simp [boldPara, bulletPara])
    · have hp : ps = [] := by
        injection h with h5
        exact h5.symm
      subst hp
      simp
  · have hp : ps = [] := by
      injection h with h5
      exact h5.symm
    subst hp
    simp

theorem projectsParas_off (rj : Json) (ps : List Para)
    (hoff : optionalSectionOn rj ("projects") = false)
    (h : projectsParas rj = some ps) : ps = [] := by
  simp only [projectsParas, Option.bind_eq_some, bind] at h
  obtain ⟨hasP, h1, h⟩ := h
  split at h
  · simp only [Option.bind_eq_some] at h
    obtain ⟨pv, h2, h⟩ := h
    have htr : pyTruthy pv = false := by
      have hx : optionalSectionOn rj ("projects") = pyTruthy pv := by
        simp [optionalSectionOn, h2]
      rw [← hx, hoff]
    split at h
    · next hyes => rw [htr] at hyes; cases hyes
    · injection h with h5
      exact h5.symm
  · injection h with h5
    exact h5.symm

theorem certsParas_off (rj : Json) (ps : List Para)
    (hoff : optionalSectionOn rj ("certifications") = false)
    (h : certsParas rj = some ps) : ps = [] := by
  simp only [certsParas, Option.bind_eq_some, bind] at h
  obtain ⟨hasC, h1, h⟩ := h
  split at h
  · simp only [Option.bind_eq_some] at h
    obtain ⟨cv, h2, h⟩ := h
    have htr : pyTruthy cv = false := by
      have hx : optionalSectionOn rj ("certifications") = pyTruthy cv := by
        simp [optionalSectionOn, h2]
      rw [← hx, hoff]
    split at h
    · next hyes => rw [htr] at hyes; cases hyes
    · injection h with h5
      exact h5.symm
  · injection h with h5
    exact h5.symm

theorem activitiesParas_off (rj : Json) (ps : List Para)
    (hoff : optionalSectionOn rj ("activities") = false)
    (h : activitiesParas rj = some ps) : ps = [] := by
  simp only [activitiesParas, Option.bind_eq_some, bind] at h
  obtain ⟨hasA, h1, h⟩ := h
  split at h
  · simp only [Option.bind_eq_some] at h
    obtain ⟨av, h2, h⟩ := h
    have htr : pyTruthy av = false := by
      have hx : optionalSectionOn rj ("activities") = pyTruthy av := by
        simp [optionalSectionOn, h2]
      rw [← hx, hoff]
    split at h
    · next hyes => rw [htr] at hyes; cases hyes
    · injection h with h5
      exact h5.symm
  · injection h with h5
    exact h5.symm

theorem leadershipParas_off (rj : Json) (ps : List Para)
    (hoff : optionalSectionOn rj ("leadership") = false)
    (h : leadershipParas rj = some ps) : ps = [] := by
  simp only [leadershipParas, Option.bind_eq_some, bind] at h
  obtain ⟨hasL, h1, h⟩ := h
  split at h
  · simp only [Option.bind_eq_some] at h
    obtain ⟨lv, h2, h⟩ := h
    have htr : pyTruthy lv = false := by
      have hx : optionalSectionOn rj ("leadership") = pyTruthy lv := by
        simp [optionalSectionOn, h2]
      rw [← hx, hoff]
    split at h
    · next hyes => rw [htr] at hyes; cases hyes
    · injection h with h5
      exact h5.symm
  · injection h with h5
    exact h5.symm

theorem docx_decomp (rj : Json) (out : List Para) (h : create_resume_docx rj = some out) :
    ∃ hd sm sk ex ed pj ct ac ld,
      headerParas rj = some hd ∧ summaryParas rj = some sm ∧ skillsParas rj = some sk ∧
      experienceParas rj = some ex ∧ educationParas rj = some ed ∧
      projectsParas rj = some pj ∧ certsParas rj = some ct ∧
      activitiesParas rj = some ac ∧ leadershipParas rj = some ld ∧
      out = hd ++ sm ++ sk ++ ex ++ ed ++ pj ++ ct ++ ac ++ ld := by
  simp only [create_resume_docx, Option.bind_eq_some, bind] at h
  obtain ⟨hd, h1, sm, h2, sk, h3, ex, h4, ed, h5, pj, h6, ct, h7, ac, h8, ld, h9, h⟩ := h
  refine ⟨hd, sm, sk, ex, ed, pj, ct, ac, ld, h1, h2, h3, h4, h5, h6, h7, h8, h9, ?_⟩
  injection h with h10
  exact h10.symm

theorem any_key_eq_isSome (kvs : List (String × Json)) (k : String) :
    kvs.any (fun p => p.1 == k) = (pyLookup kvs k).isSome := by
  induction kvs with
  | nil => rfl
  | cons kv rest ih =>
      rcases kv with ⟨k2, v⟩
      simp only [List.any_cons, pyLookup]
      cases hk : (k2 == k) <;> simp [hk, ih]

theorem pyContains_true_of_index (rj : Json) (k : String) (v : Json) (b : Bool)
    (hv : pyIndex rj k = some v) (hb : pyContains rj k = some b) : b = true := by
  cases rj <;> simp [pyIndex] at hv
  case obj kvs =>
    simp only [pyContains] at hb
    injection hb with hb2
    rw [← hb2, any_key_eq_isSome, hv]
    rfl

/-- Claim C8: in the docx rendering, an absent-or-empty optional section
contributes no heading, and a single project yields exactly one PROJECTS
heading followed by exactly one project block; the same present-and-non-empty
rule governs certifications, activities and leadership.  For the sections
other than projects, the no-spurious-heading statement needs the sanity side
condition `projTitlesAvoid` — a record whose *project title* is the literal
heading string would put an identically formatted paragraph in the output. -/
theorem create_resume_docx_optional_sections (rj : Json) (out : List Para)
    (h : create_resume_docx rj = some out) :
    (optionalSectionOn rj ("projects") = false → boldPara ("PROJECTS") ∉ out)
    ∧ (∀ p, pyIndex rj ("projects") = some (Json.arr [p]) →
        pyIndex p ("title") ≠ some (Json.str ("PROJECTS")) →
        ∃ pre blk post,
          projBlock p = some blk ∧
          out = pre ++ (blankPara :: boldPara ("PROJECTS") :: blk) ++ post ∧
          boldPara ("PROJECTS") ∉ pre ∧ boldPara ("PROJECTS") ∉ blk ∧
          boldPara ("PROJECTS") ∉ post ∧
          List.countP (fun q => q == boldPara ("PROJECTS")) out = 1)
    ∧ (projTitlesAvoid rj ("CERTIFICATIONS") →
        optionalSectionOn rj ("certifications") = false →
        boldPara ("CERTIFICATIONS") ∉ out)
    ∧ (projTitlesAvoid rj ("EXTRA-CURRICULAR ACTIVITIES") →
        optionalSectionOn rj ("activities") = false →
        boldPara ("EXTRA-CURRICULAR ACTIVITIES") ∉ out)
    ∧ (projTitlesAvoid rj ("LEADERSHIP") →
        optionalSectionOn rj ("leadership") = false →
        boldPara ("LEADERSHIP") ∉ out) := by
  obtain ⟨hd, sm, sk, ex, ed, pj, ct, ac, ld, h1, h2, h3, h4, h5, h6, h7, h8, h9, hout⟩ :=
    docx_decomp rj out h
  subst hout
  refine ⟨?_, ?_, ?_, ?_, ?_⟩
  · intro hoff
    have hpj : pj = [] := projectsParas_off rj pj hoff h6
    intro hmem
    simp only [List.mem_append] at hmem
    rcases hmem with ((((((((m | m) | m) | m) | m) | m) | m) | m) | m)
    · exact header_no_heading rj hd _ h1 m
    · exact summary_no_heading rj sm _ (by decide) h2 m
    · exact skills_no_heading rj sk _ (by decide) h3 m
    · exact experience_no_heading rj ex _ (by decide) (by decide) h4 m
    · exact education_no_heading rj ed _ (by decide) (by decide) h5 m
    · rw [hpj] at m; cases m
    · exact certs_no_heading rj ct _ (by decide) (by decide) h7 m
    · exact activities_no_heading rj ac _ (by decide) h8 m
    · exact leadership_no_heading rj ld _ (by decide) h9 m
  · intro p hone ht
    -- recompute the projects section under the single-project hypothesis
    simp only [projectsParas, Option.bind_eq_some, bind] at h6
    obtain ⟨hasP, hh1, h6⟩ := h6
    have hasPT : hasP = true := pyContains_true_of_index rj _ _ hasP hone hh1
    subst hasPT
    rw [if_pos rfl] at h6
    simp only [Option.bind_eq_some] at h6
    obtain ⟨pv, hpv, h6⟩ := h6
    rw [hone] at hpv
    injection hpv with hpv2
    subst hpv2
    rw [if_pos (show pyTruthy (Json.arr [p]) = true from rfl)] at h6
    simp only [Option.bind_eq_some] at h6
    obtain ⟨psL, hps, h6⟩ := h6
    have hpsL : psL = [p] := by
      injection hps with hps2
      exact hps2.symm
    subst hpsL
    obtain ⟨blocks, hbl, h6⟩ := h6
    have hblk : ∃ blk, projBlock p = some blk ∧ blocks = [blk] := by
      simp only [mapMOpt] at hbl
      cases hpb : projBlock p with
      | none => rw [hpb] at hbl; cases hbl
      | some blk =>
          rw [hpb] at hbl
          refine ⟨blk, rfl, ?_⟩
          injection hbl with hbl2
          exact hbl2.symm
    obtain ⟨blk, hpb, hbocks⟩ := hblk
    subst hbocks
    have hpj : pj = blankPara :: boldPara ("PROJECTS") :: blk := by
      injection h6 with h62
      rw [← h62]
      simp
    subst hpj
    have hnotblk : boldPara ("PROJECTS") ∉ blk := projBlock_no_heading p blk _ ht hpb
    have hnotpre : boldPara ("PROJECTS") ∉ hd ++ sm ++ sk ++ ex ++ ed := by
      intro hmem
      simp only [List.mem_append] at hmem
      rcases hmem with ((((m | m) | m) | m) | m)
      · exact header_no_heading rj hd _ h1 m
      · exact summary_no_heading rj sm _ (by decide) h2 m
      · exact skills_no_heading rj sk _ (by decide) h3 m
      · exact experience_no_heading rj ex _ (by decide) (by decide) h4 m
      · exact education_no_heading rj ed _ (by decide) (by decide) h5 m
    have hnotpost : boldPara ("PROJECTS") ∉ ct ++ ac ++ ld := by
      intro hmem
      simp only [List.mem_append] at hmem
      rcases hmem with ((m | m) | m)
      · exact certs_no_heading rj ct _ (by decide) (by decide) h7 m
      · exact activities_no_heading rj ac _ (by decide) h8 m
      · exact leadership_no_heading rj ld _ (by decide) h9 m
    refine ⟨hd ++ sm ++ sk ++ ex ++ ed, blk, ct ++ ac ++ ld, hpb, by simp, hnotpre, hnotblk,
      hnotpost, ?_⟩
    have cz : ∀ l : List Para, boldPara ("PROJECTS") ∉ l →
        List.countP (fun q => q == boldPara ("PROJECTS")) l = 0 := by
      intro l hl
      rw [List.countP_eq_zero]
      intro a ha hqa
      exact hl ((beq_iff_eq.mp hqa) ▸ ha)
    simp only [List.countP_append, List.countP_cons]
    rw [cz _ (fun m => hnotpre (by simp only [List.mem_append] at m ⊢; tauto)),
        cz _ (fun m => hnotpre (by simp only [List.mem_append] at m ⊢; tauto)),
        cz _ (fun m => hnotpre (by simp only [List.mem_append] at m ⊢; tauto)),
        cz _ (fun m => hnotpre (by simp only [List.mem_append] at m ⊢; tauto)),
        cz _ (fun m => hnotpre (by simp only [List.mem_append] at m ⊢; tauto)),
        cz _ hnotblk,
        cz _ (fun m => hnotpost (by simp only [List.mem_append] at m ⊢; tauto)),
        cz _ (fun m => hnotpost (by simp only [List.mem_append] at m ⊢; tauto)),
        cz _ (fun m => hnotpost (by simp only [List.mem_append] at m ⊢; tauto))]
    decide
  · intro htitle hoff
    have hct : ct = [] := certsParas_off rj ct hoff h7
    intro hmem
    simp only [List.mem_append] at hmem
    rcases hmem with ((((((((m | m) | m) | m) | m) | m) | m) | m) | m)
    · exact header_no_heading rj hd _ h1 m
    · exact summary_no_heading rj sm _ (by decide) h2 m
    · exact skills_no_heading rj sk _ (by decide) h3 m
    · exact experience_no_heading rj ex _ (by decide) (by decide) h4 m
    · exact education_no_heading rj ed _ (by decide) (by decide) h5 m
    · exact projects_no_heading rj pj _ (by decide) htitle h6 m
    · rw [hct] at m; cases m
    · exact activities_no_heading rj ac _ (by decide) h8 m
    · exact leadership_no_heading rj ld _ (by decide) h9 m
  · intro htitle hoff
    have hac : ac = [] := activitiesParas_off rj ac hoff h8
    intro hmem
    simp only [List.mem_append] at hmem
    rcases hmem with ((((((((m | m) | m) | m) | m) | m) | m) | m) | m)
    · exact header_no_heading rj hd _ h1 m
    · exact summary_no_heading rj sm _ (by decide) h2 m
    · exact skills_no_heading rj sk _ (by decide) h3 m
    · exact experience_no_heading rj ex _ (by decide) (by decide) h4 m
    · exact education_no_heading rj ed _ (by decide) (by decide) h5 m
    · exact projects_no_heading rj pj _ (by decide) htitle h6 m
    · exact certs_no_heading rj ct _ (by decide) (by decide) h7 m
    · rw [hac] at m; cases m
    · exact leadership_no_heading rj ld _ (by decide) h9 m
  · intro htitle hoff
    have hld : ld = [] := leadershipParas_off rj ld hoff h9
    intro hmem
    simp only [List.mem_append] at hmem
    rcases hmem with ((((((((m | m) | m) | m) | m) | m) | m) | m) | m)
    · exact header_no_heading rj hd _ h1 m
    · exact summary_no_heading rj sm _ (by decide) h2 m
    · exact skills_no_heading rj sk _ (by decide) h3 m
    · exact experience_no_heading rj ex _ (by decide) (by decide) h4 m
    · exact education_no_heading rj ed _ (by decide) (by decide) h5 m
    · exact projects_no_heading rj pj _ (by decide) htitle h6 m
    · exact certs_no_heading rj ct _ (by decide) (by decide) h7 m
    · exact activities_no_heading rj ac _ (by decide) h8 m
    · rw [hld] at m; cases m

/-- Witness for C8: the optional-section record without projects renders with
no PROJECTS heading, and the one-project record renders with exactly one. -/
theorem create_resume_docx_optional_sections_witness :
    boldPara ("PROJECTS") ∉ (create_resume_docx recNoProj).getD []
    ∧ List.countP (fun q => q == boldPara ("PROJECTS"))
        ((create_resume_docx recOneProj).getD []) = 1 := by
  constructor
  · exact (create_resume_docx_optional_sections recNoProj
      ((create_resume_docx recNoProj).getD []) (by rfl)).1 (by rfl)
  · have ht : pyIndex (Json.obj [("title", Json.str ("Proj X")),
        ("description", Json.str ("Did a thing"))]) ("title") ≠
        some (Json.str ("PROJECTS")) := by
      intro hc
      rw [show pyIndex (Json.obj [("title", Json.str ("Proj X")),
        ("description", Json.str ("Did a thing"))]) ("title") =
        some (Json.str ("Proj X")) from rfl] at hc
      injection hc with hc2
      injection hc2 with hc3
      exact absurd hc3 (by decide)
    obtain ⟨pre, blk, post, hb1, hb2, hb3, hb4, hb5, hcount⟩ :=
      (create_resume_docx_optional_sections recOneProj
        ((create_resume_docx recOneProj).getD []) (by rfl)).2.1
        (Json.obj [("title", Json.str ("Proj X")), ("description", Json.str ("Did a thing"))])
        (by rfl) ht
    exact hcount
